import Mathlib

/-!
# Verification of the FX shader compiler (`src/fxc.c`)

This file gives a shallow embedding of the compiler pipeline of `fxc.c`
(lexer, recursive-descent parser for the two dialects, body transformer,
GLSL code generator and manifest emitter) and proves or refutes the
specification claims about it.

Modelling conventions:
* C strings are modelled as `List Char`; one `Char` stands for one byte
  (all inputs of interest are ASCII).
* The linked lists `FXUniform*`, `FXInput*`, `FXFunction*`, `FXShader*`
  are modelled as Lean `List`s in the same order (the C code appends at
  the tail via tail pointers).
* `exit(1)` and the NULL-returning parse failures (whose callers would
  dereference the NULL) are modelled as `Except Unit` errors.
* File writes are modelled as returned `(filename, contents)` pairs.
-/

namespace Fx

/-- Token types, in the exact order of the C `TokenType` enum
(the order matters: the parser compares enum values by `<`/`>`). -/
inductive TokenType where
  | TOKEN_EOF
  | TOKEN_IDENTIFIER
  | TOKEN_NUMBER
  | TOKEN_LBRACE
  | TOKEN_RBRACE
  | TOKEN_LPAREN
  | TOKEN_RPAREN
  | TOKEN_SEMICOLON
  | TOKEN_COMMA
  | TOKEN_EQUAL
  | TOKEN_ASTERISK
  | TOKEN_DOT
  | TOKEN_COLON
  | TOKEN_MINUS
  | TOKEN_PLUS
  | TOKEN_SLASH
  | TOKEN_LT
  | TOKEN_GT
  | TOKEN_AMPERSAND
  | TOKEN_PIPE
  | TOKEN_EXCLAMATION
  | TOKEN_SHADER
  | TOKEN_UNIFORM
  | TOKEN_INPUT
  | TOKEN_VOID
  | TOKEN_OUT
  | TOKEN_VERTEX_SHADER
  | TOKEN_FRAGMENT_SHADER
  | TOKEN_FLOAT
  | TOKEN_VEC2
  | TOKEN_VEC3
  | TOKEN_VEC4
  | TOKEN_MAT4
  | TOKEN_SAMPLER2D
  | TOKEN_SAMPLERCUBE
  deriving DecidableEq, Repr

open TokenType

/-- The numeric value of each enumerator of the C `TokenType` enum. -/
def tcode : TokenType → Nat
  | TOKEN_EOF => 0
  | TOKEN_IDENTIFIER => 1
  | TOKEN_NUMBER => 2
  | TOKEN_LBRACE => 3
  | TOKEN_RBRACE => 4
  | TOKEN_LPAREN => 5
  | TOKEN_RPAREN => 6
  | TOKEN_SEMICOLON => 7
  | TOKEN_COMMA => 8
  | TOKEN_EQUAL => 9
  | TOKEN_ASTERISK => 10
  | TOKEN_DOT => 11
  | TOKEN_COLON => 12
  | TOKEN_MINUS => 13
  | TOKEN_PLUS => 14
  | TOKEN_SLASH => 15
  | TOKEN_LT => 16
  | TOKEN_GT => 17
  | TOKEN_AMPERSAND => 18
  | TOKEN_PIPE => 19
  | TOKEN_EXCLAMATION => 20
  | TOKEN_SHADER => 21
  | TOKEN_UNIFORM => 22
  | TOKEN_INPUT => 23
  | TOKEN_VOID => 24
  | TOKEN_OUT => 25
  | TOKEN_VERTEX_SHADER => 26
  | TOKEN_FRAGMENT_SHADER => 27
  | TOKEN_FLOAT => 28
  | TOKEN_VEC2 => 29
  | TOKEN_VEC3 => 30
  | TOKEN_VEC4 => 31
  | TOKEN_MAT4 => 32
  | TOKEN_SAMPLER2D => 33
  | TOKEN_SAMPLERCUBE => 34

/-- `token_type_str` from fxc.c: the printable name of each token type. -/
def token_type_str : TokenType → String
  | TOKEN_EOF => "EOF"
  | TOKEN_IDENTIFIER => "IDENTIFIER"
  | TOKEN_NUMBER => "NUMBER"
  | TOKEN_LBRACE => "\x7b"
  | TOKEN_RBRACE => "\x7d"
  | TOKEN_LPAREN => "("
  | TOKEN_RPAREN => ")"
  | TOKEN_SEMICOLON => ";"
  | TOKEN_COMMA => ","
  | TOKEN_EQUAL => "="
  | TOKEN_ASTERISK => "*"
  | TOKEN_DOT => "."
  | TOKEN_COLON => ":"
  | TOKEN_MINUS => "-"
  | TOKEN_PLUS => "+"
  | TOKEN_SLASH => "/"
  | TOKEN_LT => "<"
  | TOKEN_GT => ">"
  | TOKEN_AMPERSAND => "&"
  | TOKEN_PIPE => "|"
  | TOKEN_EXCLAMATION => "!"
  | TOKEN_SHADER => "shader"
  | TOKEN_UNIFORM => "uniform"
  | TOKEN_INPUT => "input"
  | TOKEN_VOID => "void"
  | TOKEN_OUT => "out"
  | TOKEN_VERTEX_SHADER => "vertex_shader"
  | TOKEN_FRAGMENT_SHADER => "fragment_shader"
  | TOKEN_FLOAT => "float"
  | TOKEN_VEC2 => "vec2"
  | TOKEN_VEC3 => "vec3"
  | TOKEN_VEC4 => "vec4"
  | TOKEN_MAT4 => "mat4"
  | TOKEN_SAMPLER2D => "sampler2D"
  | TOKEN_SAMPLERCUBE => "samplerCube"

/-- A token.  `text` is the token's text (in C a pointer/length view into the
source buffer), `off` the byte offset of the token start in the source
(recoverable in C as `text - src`; needed by `parse_statement`). -/
structure Token where
  type : TokenType
  text : String
  line : Nat
  col : Nat
  off : Nat
  deriving DecidableEq, Repr

/-- `is_alpha` from fxc.c (note it already includes the underscore). -/
def is_alpha (c : Char) : Bool :=
  (('a' ≤ c ∧ c ≤ 'z') ∨ ('A' ≤ c ∧ c ≤ 'Z') ∨ c = '_' : Bool)

/-- `is_digit` from fxc.c. -/
def is_digit (c : Char) : Bool :=
  ('0' ≤ c ∧ c ≤ '9' : Bool)

/-- `is_alnum` from fxc.c. -/
def is_alnum (c : Char) : Bool :=
  is_alpha c || is_digit c

/-- `check_keyword` from fxc.c: reclassify an identifier against the fixed
keyword table (exact length + content comparison, i.e. string equality). -/
def check_keyword (cs : List Char) : TokenType :=
  let s := String.mk cs
  if s = "shader" then TOKEN_SHADER
  else if s = "uniform" then TOKEN_UNIFORM
  else if s = "input" then TOKEN_INPUT
  else if s = "void" then TOKEN_VOID
  else if s = "out" then TOKEN_OUT
  else if s = "vertex_shader" then TOKEN_VERTEX_SHADER
  else if s = "fragment_shader" then TOKEN_FRAGMENT_SHADER
  else if s = "float" then TOKEN_FLOAT
  else if s = "vec2" then TOKEN_VEC2
  else if s = "vec3" then TOKEN_VEC3
  else if s = "vec4" then TOKEN_VEC4
  else if s = "mat4" then TOKEN_MAT4
  else if s = "sampler2D" then TOKEN_SAMPLER2D
  else if s = "samplerCube" then TOKEN_SAMPLERCUBE
  else TOKEN_IDENTIFIER

/-- Lexer state: `src` is the not-yet-consumed tail of the source buffer,
`pos` the absolute byte offset of its head (C keeps the full buffer plus
`pos`; only the tail from `pos` on is ever read). -/
structure Lexer where
  src : List Char
  pos : Nat
  line : Nat
  col : Nat
  deriving Repr

/-- The `//` single-line comment loop inside `skip_whitespace`:
consume until (but not including) a newline or end of input. -/
def skip_line_comment : List Char → Nat → Nat → List Char × Nat × Nat
  | [], pos, col => ([], pos, col)
  | c :: rest, pos, col =>
    if c = '\n' then (c :: rest, pos, col)
    else skip_line_comment rest (pos + 1) (col + 1)

/-- The `/* ... */` block comment loop inside `skip_whitespace`:
consume until the closing marker (inclusive) or end of input,
tracking line/column through embedded newlines. -/
def skip_block_comment : List Char → Nat → Nat → Nat → List Char × Nat × Nat × Nat
  | [], pos, line, col => ([], pos, line, col)
  | c :: rest, pos, line, col =>
    if c = '*' ∧ rest.head? = some '/' then
      (rest.tail, pos + 2, line, col + 2)
    else if c = '\n' then
      skip_block_comment rest (pos + 1) (line + 1) 1
    else
      skip_block_comment rest (pos + 1) line (col + 1)

theorem skip_line_comment_length_le (cs : List Char) (pos col : Nat) :
    (skip_line_comment cs pos col).1.length ≤ cs.length := by
  induction cs generalizing pos col with
  | nil => simp [skip_line_comment]
  | cons c rest ih =>
    simp only [skip_line_comment]
    split
    · simp
    · exact le_trans (ih _ _) (by simp)

theorem skip_block_comment_length_le (cs : List Char) (pos line col : Nat) :
    (skip_block_comment cs pos line col).1.length ≤ cs.length := by
  induction cs generalizing pos line col with
  | nil => simp [skip_block_comment]
  | cons c rest ih =>
    simp only [skip_block_comment]
    split
    · exact le_trans (List.length_tail _ ▸ Nat.sub_le _ _) (by simp)
    · split
      · exact le_trans (ih _ _ _) (by simp)
      · exact le_trans (ih _ _ _) (by simp)

/-- `skip_whitespace` from fxc.c: skip spaces/tabs/CR, newlines
(updating line/col) and both comment forms. -/
def skip_whitespace : Lexer → Lexer
  | ⟨[], pos, line, col⟩ => ⟨[], pos, line, col⟩
  | ⟨c :: rest, pos, line, col⟩ =>
    if c = ' ' ∨ c = '\t' ∨ c = '\r' then
      skip_whitespace ⟨rest, pos + 1, line, col + 1⟩
    else if c = '\n' then
      skip_whitespace ⟨rest, pos + 1, line + 1, 1⟩
    else if c = '/' ∧ rest.head? = some '/' then
      let r := skip_line_comment rest.tail (pos + 2) (col + 2)
      skip_whitespace ⟨r.1, r.2.1, line, r.2.2⟩
    else if c = '/' ∧ rest.head? = some '*' then
      let r := skip_block_comment rest.tail (pos + 2) line (col + 2)
      skip_whitespace ⟨r.1, r.2.1, r.2.2.1, r.2.2.2⟩
    else ⟨c :: rest, pos, line, col⟩
  termination_by lx => lx.src.length
  decreasing_by
  · simp
  · simp
  · simp only [List.length_cons]
    have h1 := skip_line_comment_length_le rest.tail (pos + 2) (col + 2)
    have h2 : rest.tail.length ≤ rest.length := List.length_tail _ ▸ Nat.sub_le _ _
    omega
  · simp only [List.length_cons]
    have h1 := skip_block_comment_length_le rest.tail (pos + 2) line (col + 2)
    have h2 : rest.tail.length ≤ rest.length := List.length_tail _ ▸ Nat.sub_le _ _
    omega

/-- The `switch (c)` of `lexer_next`: the token type of a one-character
symbol token.  The C `default` branch ("unknown character, skip it")
produces a one-byte token typed `TOKEN_EOF` — a sentinel, not a real end
of input; every `case` (and the default) advances by exactly one byte. -/
def symbol_token_type (c : Char) : TokenType :=
  if c = '{' then TOKEN_LBRACE
  else if c = '}' then TOKEN_RBRACE
  else if c = '(' then TOKEN_LPAREN
  else if c = ')' then TOKEN_RPAREN
  else if c = ';' then TOKEN_SEMICOLON
  else if c = ',' then TOKEN_COMMA
  else if c = '=' then TOKEN_EQUAL
  else if c = '*' then TOKEN_ASTERISK
  else if c = '.' then TOKEN_DOT
  else if c = ':' then TOKEN_COLON
  else if c = '-' then TOKEN_MINUS
  else if c = '+' then TOKEN_PLUS
  else if c = '/' then TOKEN_SLASH
  else if c = '<' then TOKEN_LT
  else if c = '>' then TOKEN_GT
  else if c = '&' then TOKEN_AMPERSAND
  else if c = '|' then TOKEN_PIPE
  else if c = '!' then TOKEN_EXCLAMATION
  else TOKEN_EOF

/-- The token-producing part of `lexer_next` (everything after the initial
`skip_whitespace` call). -/
def lexer_next_core : Lexer → Token × Lexer
  | ⟨[], pos, line, col⟩ =>
    (⟨TOKEN_EOF, "", line, col, pos⟩, ⟨[], pos, line, col⟩)
  | ⟨c :: rest, pos, line, col⟩ =>
    -- identifiers and keywords
    if is_alpha c ∨ c = '_' then
      let cs := (c :: rest).takeWhile (fun x => is_alnum x ∨ x = '_' : Char → Bool)
      let rest1 := (c :: rest).dropWhile (fun x => is_alnum x ∨ x = '_' : Char → Bool)
      (⟨check_keyword cs, String.mk cs, line, col, pos⟩,
       ⟨rest1, pos + cs.length, line, col + cs.length⟩)
    -- numbers: digits, then optionally a dot followed by (possibly zero) digits
    else if is_digit c then
      let ds := (c :: rest).takeWhile is_digit
      let r1 := (c :: rest).dropWhile is_digit
      if r1.head? = some '.' then
        let ds2 := r1.tail.takeWhile is_digit
        let r3 := r1.tail.dropWhile is_digit
        let text := ds ++ '.' :: ds2
        (⟨TOKEN_NUMBER, String.mk text, line, col, pos⟩,
         ⟨r3, pos + text.length, line, col + text.length⟩)
      else
        (⟨TOKEN_NUMBER, String.mk ds, line, col, pos⟩,
         ⟨r1, pos + ds.length, line, col + ds.length⟩)
    -- symbols (and the default branch for unknown characters)
    else
      (⟨symbol_token_type c, String.mk [c], line, col, pos⟩,
       ⟨rest, pos + 1, line, col + 1⟩)

/-- `lexer_next` from fxc.c. -/
def lexer_next (lx : Lexer) : Token × Lexer :=
  lexer_next_core (skip_whitespace lx)

theorem skip_whitespace_length_le (lx : Lexer) :
    (skip_whitespace lx).src.length ≤ lx.src.length := by
  induction lx using skip_whitespace.induct with
  | case1 pos line col => simp [skip_whitespace]
  | case2 c rest pos line col hc ih =>
    simp only [skip_whitespace]
    rw [if_pos hc]
    exact le_trans ih (by simp)
  | case3 rest pos line col h ih =>
    simp only [skip_whitespace]
    rw [if_neg h, if_true]
    exact le_trans ih (by simp)
  | case4 c rest pos line col hc hn hsl r ih =>
    simp only [skip_whitespace]
    rw [if_neg hc, if_neg hn, if_pos hsl]
    refine le_trans ih ?_
    have hr : r = skip_line_comment rest.tail (pos + 2) (col + 2) := rfl
    have h1 := skip_line_comment_length_le rest.tail (pos + 2) (col + 2)
    rw [hr]
    have h2 : rest.tail.length ≤ rest.length := List.length_tail _ ▸ Nat.sub_le _ _
    simp only [List.length_cons]
    omega
  | case5 c rest pos line col hc hn hsl hsb r ih =>
    simp only [skip_whitespace]
    rw [if_neg hc, if_neg hn, if_neg hsl, if_pos hsb]
    refine le_trans ih ?_
    have hr : r = skip_block_comment rest.tail (pos + 2) line (col + 2) := rfl
    have h1 := skip_block_comment_length_le rest.tail (pos + 2) line (col + 2)
    rw [hr]
    have h2 : rest.tail.length ≤ rest.length := List.length_tail _ ▸ Nat.sub_le _ _
    simp only [List.length_cons]
    omega
  | case6 c rest pos line col hc hn hsl hsb =>
    simp only [skip_whitespace]
    rw [if_neg hc, if_neg hn, if_neg hsl, if_neg hsb]

theorem length_tail_le {α : Type} (l : List α) : l.tail.length ≤ l.length := by
  cases l <;> simp

theorem length_dropWhile_le (p : Char → Bool) (l : List Char) :
    (l.dropWhile p).length ≤ l.length := by
  induction l with
  | nil => simp
  | cons a l ih =>
    rw [List.dropWhile_cons]
    split
    · exact le_trans ih (by simp)
    · simp

/-- If `lexer_next_core` does not return the genuine (zero-length) end-of-input
token, it strictly consumes input. -/
theorem lexer_next_core_shrink (s : Lexer)
    (h : ¬((lexer_next_core s).1.type = TOKEN_EOF ∧ (lexer_next_core s).1.text = "")) :
    (lexer_next_core s).2.src.length < s.src.length := by
  obtain ⟨src, pos, line, col⟩ := s
  cases src with
  | nil => exact absurd ⟨rfl, rfl⟩ h
  | cons c rest =>
    clear h
    rw [lexer_next_core]
    split
    · -- identifier branch
      rename_i hid
      simp only [List.length_cons]
      have : ((c :: rest).dropWhile (fun x => is_alnum x ∨ x = '_' : Char → Bool)).length
          ≤ rest.length := by
        rw [List.dropWhile_cons, if_pos]
        · exact length_dropWhile_le _ _
        · rcases hid with h1 | h1
          · simp [is_alnum, h1]
          · simp [is_alnum, is_alpha, h1]
      omega
    · split
      · -- number branch
        rename_i hdig
        have hr1 : ((c :: rest).dropWhile is_digit).length ≤ rest.length := by
          rw [List.dropWhile_cons, if_pos hdig]
          exact length_dropWhile_le _ _
        dsimp only
        split
        · simp only [List.length_cons]
          have h2 := length_tail_le ((c :: rest).dropWhile is_digit)
          have h3 := length_dropWhile_le is_digit ((c :: rest).dropWhile is_digit).tail
          omega
        · simpa using Nat.lt_succ_of_le hr1
      · -- symbols and unknown characters: all consume exactly one char
        simp

/-- `tokenize`: the parser's token stream.  (The C parser pulls tokens on
demand via `parser_advance`; since lexing is pure, pre-computing the whole
stream up to the genuine end-of-input token is equivalent.  Sentinel
tokens for unknown characters remain part of the stream.) -/
def tokenize (lx : Lexer) : List Token :=
  let r := lexer_next lx
  if h : r.1.type = TOKEN_EOF ∧ r.1.text = "" then []
  else r.1 :: tokenize r.2
  termination_by lx.src.length
  decreasing_by
    exact lt_of_lt_of_le (lexer_next_core_shrink _ h) (skip_whitespace_length_le lx)

/-! ## AST structures -/

/-- `FXUniform` from fxc.c (the `next` pointer becomes list structure). -/
structure FXUniform where
  type : String
  name : String
  deriving DecidableEq, Repr

/-- `FXInput` from fxc.c. -/
structure FXInput where
  type : String
  name : String
  deriving DecidableEq, Repr

/-- `FXFunction` from fxc.c.  `statements` models the single `FXStatement`
node the parsers attach (`none` = NULL). -/
structure FXFunction where
  name : String
  is_vertex : Bool
  is_fragment : Bool
  out_type : Option String
  out_name : Option String
  statements : Option String
  deriving DecidableEq, Repr

/-- `FXShader` from fxc.c. -/
structure FXShader where
  name : String
  uniforms : List FXUniform
  inputs : List FXInput
  functions : List FXFunction
  deriving DecidableEq, Repr

/-! ## Parser

The parser state is the list of not-yet-consumed tokens produced by
`tokenize`; the C parser's one-token lookahead `p->current` is the head of
the list (`cur0`), and `parser_advance` is `List.tail`.  When the list is
exhausted the C lexer keeps returning zero-length `TOKEN_EOF` tokens, which
`cur0` models with a default token. -/

/-- The parser's current token (`p->current`). -/
def cur0 (ts : List Token) : Token :=
  ts.headD ⟨TOKEN_EOF, "", 0, 0, 0⟩

/-- `parser_match`/`parser_expect` from fxc.c: on a type match consume the
token and succeed, otherwise leave the stream alone and fail. -/
def pexpect (ty : TokenType) (ts : List Token) : Bool × List Token :=
  if (cur0 ts).type = ty then (true, ts.tail) else (false, ts)

/-- The byte offset of the current token (`p->current.text - p->lex->src`);
at end of input the C lexer's EOF token points at the terminating NUL,
i.e. offset `src.length`. -/
def tokOff (src : List Char) : List Token → Nat
  | [] => src.length
  | t :: _ => t.off

/-- The raw source span `[a, b)` (the C code `memcpy`s `b - a` bytes
starting at `src + a`). -/
def slice (src : List Char) (a b : Nat) : String :=
  String.mk ((src.drop a).take (b - a))

theorem pexpect_length_le (ty : TokenType) (ts : List Token) :
    (pexpect ty ts).2.length ≤ ts.length := by
  rw [pexpect]
  split
  · exact length_tail_le ts
  · exact le_refl _

/-- `parse_uniform` from fxc.c: `uniform <Type> <Identifier> ;` where
`<Type>` must lie in the builtin-type enum range.  A NULL return is an
error (the callers dereference it). -/
def parse_uniform (ts : List Token) : Except Unit (FXUniform × List Token) :=
  if (cur0 ts).type = TOKEN_UNIFORM then
    let ts1 := ts.tail
    if tcode (cur0 ts1).type < tcode TOKEN_FLOAT ∨
       tcode TOKEN_SAMPLERCUBE < tcode (cur0 ts1).type then .error ()
    else
      let ty := (cur0 ts1).text
      let ts2 := ts1.tail
      if (cur0 ts2).type = TOKEN_IDENTIFIER then
        let nm := (cur0 ts2).text
        let ts3 := ts2.tail
        if (cur0 ts3).type = TOKEN_SEMICOLON then .ok (⟨ty, nm⟩, ts3.tail)
        else .error ()
      else .error ()
  else .error ()

/-- `parse_input` from fxc.c: identical to `parse_uniform` except for the
keyword and the result type. -/
def parse_input (ts : List Token) : Except Unit (FXInput × List Token) :=
  if (cur0 ts).type = TOKEN_INPUT then
    let ts1 := ts.tail
    if tcode (cur0 ts1).type < tcode TOKEN_FLOAT ∨
       tcode TOKEN_SAMPLERCUBE < tcode (cur0 ts1).type then .error ()
    else
      let ty := (cur0 ts1).text
      let ts2 := ts1.tail
      if (cur0 ts2).type = TOKEN_IDENTIFIER then
        let nm := (cur0 ts2).text
        let ts3 := ts2.tail
        if (cur0 ts3).type = TOKEN_SEMICOLON then .ok (⟨ty, nm⟩, ts3.tail)
        else .error ()
      else .error ()
  else .error ()

theorem parse_uniform_shrink {ts : List Token} {u : FXUniform} {ts2 : List Token}
    (h : parse_uniform ts = .ok (u, ts2)) : ts2.length < ts.length := by
  rw [parse_uniform] at h
  split at h
  · rename_i hu
    have hne : ts ≠ [] := by
      intro he
      rw [he] at hu
      simp [cur0] at hu
    dsimp only at h
    split at h
    · exact absurd h (by simp)
    · split at h
      · split at h
        · have h4 : ts2 = ts.tail.tail.tail.tail := by
            injection h with h'
            injection h' with h1 h2
            exact h2.symm
          subst h4
          have l1 := length_tail_le ts.tail.tail.tail
          have l2 := length_tail_le ts.tail.tail
          have l3 := length_tail_le ts.tail
          have l4 : ts.tail.length < ts.length := by
            cases ts with
            | nil => exact absurd rfl hne
            | cons a l => simp
          omega
        · exact absurd h (by simp)
      · exact absurd h (by simp)
  · exact absurd h (by simp)

theorem parse_input_shrink {ts : List Token} {u : FXInput} {ts2 : List Token}
    (h : parse_input ts = .ok (u, ts2)) : ts2.length < ts.length := by
  rw [parse_input] at h
  split at h
  · rename_i hu
    have hne : ts ≠ [] := by
      intro he
      rw [he] at hu
      simp [cur0] at hu
    dsimp only at h
    split at h
    · exact absurd h (by simp)
    · split at h
      · split at h
        · have h4 : ts2 = ts.tail.tail.tail.tail := by
            injection h with h'
            injection h' with h1 h2
            exact h2.symm
          subst h4
          have l1 := length_tail_le ts.tail.tail.tail
          have l2 := length_tail_le ts.tail.tail
          have l3 := length_tail_le ts.tail
          have l4 : ts.tail.length < ts.length := by
            cases ts with
            | nil => exact absurd rfl hne
            | cons a l => simp
          omega
        · exact absurd h (by simp)
      · exact absurd h (by simp)
  · exact absurd h (by simp)

/-! ## Body transformer (modern dialect) -/

/-- The `add_space_before` decision chain inside
`parse_function_body_to_glsl` (the final "space before commas" else-if in
the C code has an empty body and contributes nothing). -/
def add_space_before (prev c : TokenType) : Bool :=
  if prev = TOKEN_EOF then false
  else if c = TOKEN_EQUAL ∧ (prev = TOKEN_PLUS ∨ prev = TOKEN_MINUS ∨
      prev = TOKEN_ASTERISK ∨ prev = TOKEN_SLASH) then false
  else if c = TOKEN_EQUAL ∨ c = TOKEN_PLUS ∨ c = TOKEN_MINUS ∨
      c = TOKEN_ASTERISK ∨ c = TOKEN_SLASH ∨ c = TOKEN_LT ∨ c = TOKEN_GT then true
  else if prev = TOKEN_EQUAL ∨ prev = TOKEN_PLUS ∨ prev = TOKEN_MINUS ∨
      prev = TOKEN_ASTERISK ∨ prev = TOKEN_SLASH ∨ prev = TOKEN_LT ∨ prev = TOKEN_GT then true
  else if prev = TOKEN_IDENTIFIER ∧ c = TOKEN_IDENTIFIER then true
  else if (tcode TOKEN_FLOAT ≤ tcode prev ∧ tcode prev ≤ tcode TOKEN_SAMPLERCUBE) ∧
      c = TOKEN_IDENTIFIER then true
  else if prev = TOKEN_COMMA then true
  else false

/-- How the general branch of `parse_function_body_to_glsl` renders one
token: identifiers and numbers by their text; a token whose
`token_type_str` is a single character by that character; anything else by
its text. -/
def emit_token_text (t : Token) : String :=
  if t.type = TOKEN_IDENTIFIER ∨ t.type = TOKEN_NUMBER then t.text
  else if (token_type_str t.type).length = 1 then token_type_str t.type
  else t.text

/-- `if (p->current.type == ty) parser_advance(p);` -/
def skip_if (ty : TokenType) (ts : List Token) : List Token :=
  if (cur0 ts).type = ty then ts.tail else ts

/-- The semantic-annotation skip inside `parse_function_body_to_glsl`:
skip a `:`, and an identifier after it if present. -/
def skip_semantic (ts : List Token) : List Token :=
  if (cur0 ts).type = TOKEN_COLON then
    let t1 := ts.tail
    if (cur0 t1).type = TOKEN_IDENTIFIER then t1.tail else t1
  else ts

theorem skip_if_length_le (ty : TokenType) (ts : List Token) :
    (skip_if ty ts).length ≤ ts.length := by
  rw [skip_if]
  split
  · exact length_tail_le ts
  · exact le_refl _

theorem skip_semantic_length_le (ts : List Token) :
    (skip_semantic ts).length ≤ ts.length := by
  rw [skip_semantic]
  split
  · dsimp only
    split
    · exact le_trans (length_tail_le _) (length_tail_le _)
    · exact length_tail_le _
  · exact le_refl _

/-- `parse_function_body_to_glsl` from fxc.c: transform a modern-dialect
function body token-by-token into GLSL text.

* The loop guard stops at the first `TOKEN_RBRACE` or `TOKEN_EOF`-typed
  token; the "inner closing brace" else-if in the loop body is therefore
  dead code (kept here for fidelity).
* `out <Type> <Identifier> [: SEMANTIC] ;` is rewritten to
  `out <Type> <Identifier>;\n` in a vertex body and dropped entirely in a
  fragment body.
* The 4096-byte output buffer's overflow check `body_pos >= 4090` at the
  bottom of each iteration is modelled on the accumulated string length.
* The C `exit(1)` calls (bad type after `out`, missing identifier,
  overflow) are `.error ()`.

Arguments `depth`, `prev` and `body` are the C locals, initially
`0`, `TOKEN_EOF`, `""`. -/
def parse_function_body_to_glsl (is_vertex : Bool) :
    List Token → Nat → TokenType → String → Except Unit (String × List Token)
  | ts, depth, prev, body =>
    if (cur0 ts).type = TOKEN_RBRACE ∨ (cur0 ts).type = TOKEN_EOF then
      .ok (body, ts)
    else if (cur0 ts).type = TOKEN_LBRACE then
      let body1 := body ++ "\x7b"
      if 4090 ≤ body1.length then .error ()
      else parse_function_body_to_glsl is_vertex ts.tail (depth + 1) prev body1
    else if (cur0 ts).type = TOKEN_RBRACE then
      -- dead code (see above)
      if 0 < depth then
        let body1 := body ++ "\x7d"
        if 4090 ≤ body1.length then .error ()
        else parse_function_body_to_glsl is_vertex ts.tail (depth - 1) prev body1
      else .ok (body, ts)
    else if (cur0 ts).type = TOKEN_OUT then
      let ts1 := ts.tail
      if tcode (cur0 ts1).type < tcode TOKEN_FLOAT ∨
         tcode TOKEN_SAMPLERCUBE < tcode (cur0 ts1).type then .error ()
      else if is_vertex then
        let body1 := body ++ "out " ++ (cur0 ts1).text ++ " "
        let ts2 := ts1.tail
        if (cur0 ts2).type = TOKEN_IDENTIFIER then
          let body2 := body1 ++ (cur0 ts2).text
          let ts3 := skip_semantic ts2.tail
          let body3 := body2 ++ ";\n"
          let ts4 := skip_if TOKEN_SEMICOLON ts3
          if 4090 ≤ body3.length then .error ()
          else parse_function_body_to_glsl is_vertex ts4 depth prev body3
        else .error ()
      else
        let ts2 := ts1.tail
        let ts3 := skip_if TOKEN_IDENTIFIER ts2
        let ts4 := skip_semantic ts3
        let ts5 := skip_if TOKEN_SEMICOLON ts4
        if 4090 ≤ body.length then .error ()
        else parse_function_body_to_glsl is_vertex ts5 depth prev body
    else
      let c := cur0 ts
      let body1 := body ++ (if add_space_before prev c.type then " " else "") ++
        emit_token_text c ++ (if c.type = TOKEN_SEMICOLON then "\n    " else "")
      if 4090 ≤ body1.length then .error ()
      else parse_function_body_to_glsl is_vertex ts.tail depth c.type body1
  termination_by ts _ _ _ => ts.length
  decreasing_by
  all_goals
    (have hne : ts ≠ [] := by
       intro he
       subst he
       simp [cur0] at *
     have h8 : ts.tail.length < ts.length := by
       cases ts with
       | nil => exact absurd rfl hne
       | cons a l => simp
     first
       | exact h8
       | (show (skip_if TOKEN_SEMICOLON (skip_semantic ts.tail.tail.tail)).length < ts.length
          have h1 := skip_if_length_le TOKEN_SEMICOLON (skip_semantic ts.tail.tail.tail)
          have h2 := skip_semantic_length_le ts.tail.tail.tail
          have h3 := length_tail_le ts.tail.tail
          have h4 := length_tail_le ts.tail
          omega)
       | (show (skip_if TOKEN_SEMICOLON
            (skip_semantic (skip_if TOKEN_IDENTIFIER ts.tail.tail))).length < ts.length
          have h5 := skip_if_length_le TOKEN_SEMICOLON
            (skip_semantic (skip_if TOKEN_IDENTIFIER ts.tail.tail))
          have h6 := skip_semantic_length_le (skip_if TOKEN_IDENTIFIER ts.tail.tail)
          have h7 := skip_if_length_le TOKEN_IDENTIFIER ts.tail.tail
          have h3 := length_tail_le ts.tail.tail
          have h4 := length_tail_le ts.tail
          omega))

/-! ## Legacy-dialect parsing -/

/-- The loop of `parse_statement` from fxc.c.  Although the loop body
tracks a brace depth, its guard `current != TOKEN_RBRACE && current !=
TOKEN_EOF` already stops at the first right brace (the inner
`depth--` branch is unreachable and the bottom-of-loop break fires at the
same tokens), so the loop consumes tokens up to, and not including, the
first `TOKEN_RBRACE`- or `TOKEN_EOF`-typed token. -/
def skipStmt : List Token → List Token
  | [] => []
  | t :: rest =>
    if t.type = TOKEN_RBRACE ∨ t.type = TOKEN_EOF then t :: rest
    else skipStmt rest

theorem skipStmt_length_le (ts : List Token) : (skipStmt ts).length ≤ ts.length := by
  induction ts with
  | nil => simp [skipStmt]
  | cons t rest ih =>
    rw [skipStmt]
    split
    · simp
    · exact le_trans ih (by simp)

/-- `parse_statement` from fxc.c: capture the raw source span from the
current token up to the stopping token as the function body text. -/
def parse_statement (src : List Char) (ts : List Token) : String × List Token :=
  let start := tokOff src ts
  let ts1 := skipStmt ts
  (slice src start (tokOff src ts1), ts1)

theorem parse_statement_length_le (src : List Char) (ts : List Token) :
    (parse_statement src ts).2.length ≤ ts.length :=
  skipStmt_length_le ts

/-- The shared tail of `parse_function` from fxc.c (everything from the
`parser_expect(p, TOKEN_RPAREN, ")")` on); it cannot fail. -/
def parse_function_fin (src : List Char) (name : String) (is_vertex is_fragment : Bool)
    (oty onm : Option String) (tsx : List Token) : FXFunction × List Token :=
  let ts7 := (pexpect TOKEN_RPAREN tsx).2
  let ts8 := (pexpect TOKEN_LBRACE ts7).2
  let pr := parse_statement src ts8
  let ts9 := (pexpect TOKEN_RBRACE pr.2).2
  (⟨name, is_vertex, is_fragment, oty, onm, some pr.1⟩, ts9)

theorem parse_function_fin_length_le (src : List Char) (name : String)
    (iv ifr : Bool) (oty onm : Option String) (tsx : List Token) :
    (parse_function_fin src name iv ifr oty onm tsx).2.length ≤ tsx.length := by
  rw [parse_function_fin]
  dsimp only
  have h1 := pexpect_length_le TOKEN_RPAREN tsx
  have h2 := pexpect_length_le TOKEN_LBRACE (pexpect TOKEN_RPAREN tsx).2
  have h3 := parse_statement_length_le src (pexpect TOKEN_LBRACE (pexpect TOKEN_RPAREN tsx).2).2
  have h4 := pexpect_length_le TOKEN_RBRACE
    (parse_statement src (pexpect TOKEN_LBRACE (pexpect TOKEN_RPAREN tsx).2).2).2
  omega

/-- `parse_function` from fxc.c (legacy `void NAME(...) { ... }` form).

Faithfully reproduced quirk: `parser_expect(p, TOKEN_IDENTIFIER, ...)`
*advances past* the name on success, and only then is
`token_to_str(&p->current)` taken — so `name` is the text of the token
*after* the function name (normally `"("`), and the `strcmp`-based
vertex/fragment classification compares against that text.  The same
off-by-one applies to the recorded fragment out-parameter name.  The
ignored return values of `parser_expect` are also faithful: the C code
discards them and continues. -/
def parse_function (src : List Char) (ts : List Token) : Except Unit (FXFunction × List Token) :=
  let ts1 := (pexpect TOKEN_VOID ts).2
  let ts2 := (pexpect TOKEN_IDENTIFIER ts1).2
  let name := (cur0 ts2).text
  let is_vertex := name = "vertex"
  let is_fragment := name = "fragment"
  let ts3 := (pexpect TOKEN_LPAREN ts2).2
  if is_fragment ∧ (cur0 ts3).type = TOKEN_OUT then
    let ts4 := ts3.tail
    if tcode (cur0 ts4).type < tcode TOKEN_FLOAT ∨
       tcode TOKEN_MAT4 < tcode (cur0 ts4).type then .error ()
    else
      let oty := (cur0 ts4).text
      let ts5 := ts4.tail
      let ts6 := (pexpect TOKEN_IDENTIFIER ts5).2
      let onm := (cur0 ts6).text
      .ok (parse_function_fin src name is_vertex is_fragment (some oty) (some onm) ts6)
  else
    .ok (parse_function_fin src name is_vertex is_fragment none none ts3)

theorem parse_function_shrink {src : List Char} {ts : List Token}
    {fn : FXFunction} {ts2 : List Token}
    (hv : (cur0 ts).type = TOKEN_VOID)
    (h : parse_function src ts = .ok (fn, ts2)) : ts2.length < ts.length := by
  have hne : ts ≠ [] := by
    intro he
    rw [he] at hv
    simp [cur0] at hv
  have hts1 : (pexpect TOKEN_VOID ts).2 = ts.tail := by
    rw [pexpect, if_pos hv]
  rw [parse_function, hts1] at h
  dsimp only at h
  have htail : ts.tail.length < ts.length := by
    cases ts with
    | nil => exact absurd rfl hne
    | cons a l => simp
  have h2 := pexpect_length_le TOKEN_IDENTIFIER ts.tail
  have h3 := pexpect_length_le TOKEN_LPAREN (pexpect TOKEN_IDENTIFIER ts.tail).2
  split at h
  · split at h
    · exact absurd h (by simp)
    · injection h with h'
      have hts2 := congrArg Prod.snd h'
      dsimp only at hts2
      rw [← hts2]
      refine lt_of_le_of_lt (parse_function_fin_length_le _ _ _ _ _ _ _) ?_
      have h5 := pexpect_length_le TOKEN_IDENTIFIER
        ((pexpect TOKEN_LPAREN (pexpect TOKEN_IDENTIFIER ts.tail).2).2).tail.tail
      have h6 := length_tail_le ((pexpect TOKEN_LPAREN (pexpect TOKEN_IDENTIFIER ts.tail).2).2).tail
      have h7 := length_tail_le (pexpect TOKEN_LPAREN (pexpect TOKEN_IDENTIFIER ts.tail).2).2
      omega
  · injection h with h'
    have hts2 := congrArg Prod.snd h'
    dsimp only at hts2
    rw [← hts2]
    refine lt_of_le_of_lt (parse_function_fin_length_le _ _ _ _ _ _ _) ?_
    omega

/-! ## Modern-dialect parsing -/

/-- The semantic check in the parameter loop of `parse_new_function`:
on a `:`, consume it and expect (consuming on success) an identifier. -/
def param_semantic (ts : List Token) : List Token :=
  if (cur0 ts).type = TOKEN_COLON then (pexpect TOKEN_IDENTIFIER ts.tail).2 else ts

theorem param_semantic_length_le (ts : List Token) :
    (param_semantic ts).length ≤ ts.length := by
  rw [param_semantic]
  split
  · exact le_trans (pexpect_length_le _ _) (length_tail_le _)
  · exact le_refl _

/-- The parameter-list loop of `parse_new_function` from fxc.c:
`(Type|Identifier) Identifier [: SEMANTIC] (, ...)*` until `)`.
A wrong leading token or a bad separator is `exit(1)`; the
`parser_expect` results for the parameter name and the semantic are
ignored (the C code discards them). -/
def parse_params : List Token → Except Unit (List Token)
  | ts =>
    if (cur0 ts).type = TOKEN_RPAREN ∨ (cur0 ts).type = TOKEN_EOF then .ok ts
    else if (cur0 ts).type = TOKEN_FLOAT ∨ (cur0 ts).type = TOKEN_VEC2 ∨
        (cur0 ts).type = TOKEN_VEC3 ∨ (cur0 ts).type = TOKEN_VEC4 ∨
        (cur0 ts).type = TOKEN_MAT4 ∨ (cur0 ts).type = TOKEN_SAMPLER2D ∨
        (cur0 ts).type = TOKEN_SAMPLERCUBE ∨ (cur0 ts).type = TOKEN_IDENTIFIER then
      let ts1 := ts.tail
      let ts2 := (pexpect TOKEN_IDENTIFIER ts1).2
      let ts3 := param_semantic ts2
      if (cur0 ts3).type = TOKEN_COMMA then parse_params ts3.tail
      else if (cur0 ts3).type = TOKEN_RPAREN then .ok ts3
      else .error ()
    else .error ()
  termination_by ts => ts.length
  decreasing_by
    (have hne : ts ≠ [] := by
       rename_i hg _ _
       intro he
       rw [he] at hg
       simp [cur0] at hg
     show (param_semantic (pexpect TOKEN_IDENTIFIER ts.tail).2).tail.length < ts.length
     have h1 := length_tail_le (param_semantic (pexpect TOKEN_IDENTIFIER ts.tail).2)
     have h2 := param_semantic_length_le (pexpect TOKEN_IDENTIFIER ts.tail).2
     have h3 := pexpect_length_le TOKEN_IDENTIFIER ts.tail
     have h4 : ts.tail.length < ts.length := by
       have hpos : 0 < ts.length := List.length_pos.mpr hne
       have hq := List.length_tail ts
       omega
     omega)

theorem parse_params_le : ∀ (n : Nat) (ts : List Token) (ts2 : List Token),
    ts.length ≤ n → parse_params ts = .ok ts2 → ts2.length ≤ ts.length := by
  intro n
  induction n with
  | zero =>
    intro ts ts2 hlen h
    have hts : ts = [] := List.length_eq_zero.mp (Nat.le_zero.mp hlen)
    subst hts
    rw [parse_params] at h
    simp [cur0] at h
    simp [h]
  | succ n ih =>
    intro ts ts2 hlen h
    have hA : ts.tail.length = ts.length - 1 := List.length_tail _
    have h1 := length_tail_le (param_semantic (pexpect TOKEN_IDENTIFIER ts.tail).2)
    have h2 := param_semantic_length_le (pexpect TOKEN_IDENTIFIER ts.tail).2
    have h3 := pexpect_length_le TOKEN_IDENTIFIER ts.tail
    rw [parse_params] at h
    dsimp only at h
    repeat' split at h
    all_goals first
      | (injection h with h'
         rw [← h']
         try omega)
      | (refine le_trans (ih _ ts2 ?_ h) ?_ <;> omega)
      | simp at h

/-- `parse_new_function` from fxc.c (modern
`vertex_shader|fragment_shader [NAME] (params) { body }` form).
The stage comes from the leading keyword; an anonymous function gets the
default name `"vertex"`/`"fragment"`. -/
def parse_new_function (ts : List Token) : Except Unit (FXFunction × List Token) :=
  let function_type := (cur0 ts).type
  let is_vertex := function_type = TOKEN_VERTEX_SHADER
  let is_fragment := function_type = TOKEN_FRAGMENT_SHADER
  let ts1 := ts.tail
  let pr : String × List Token :=
    if (cur0 ts1).type = TOKEN_IDENTIFIER then ((cur0 ts1).text, ts1.tail)
    else ((if is_vertex then "vertex" else "fragment"), ts1)
  let name := pr.1
  let ts2 := pr.2
  let ts3 := (pexpect TOKEN_LPAREN ts2).2
  match parse_params ts3 with
  | .error e => .error e
  | .ok ts4 =>
    let ts5 := (pexpect TOKEN_RPAREN ts4).2
    let ts6 := (pexpect TOKEN_LBRACE ts5).2
    match parse_function_body_to_glsl is_vertex ts6 0 TOKEN_EOF "" with
    | .error e => .error e
    | .ok (body, ts7) =>
      let ts8 := (pexpect TOKEN_RBRACE ts7).2
      .ok (⟨name, is_vertex, is_fragment, none, none, some body⟩, ts8)

theorem parse_function_body_le : ∀ (n : Nat) (iv : Bool) (ts : List Token) (depth : Nat)
    (prev : TokenType) (body : String) (s : String) (ts2 : List Token),
    ts.length ≤ n → parse_function_body_to_glsl iv ts depth prev body = .ok (s, ts2) →
    ts2.length ≤ ts.length := by
  intro n
  induction n with
  | zero =>
    intro iv ts depth prev body s ts2 hlen h
    have hts : ts = [] := List.length_eq_zero.mp (Nat.le_zero.mp hlen)
    subst hts
    rw [parse_function_body_to_glsl] at h
    simp [cur0] at h
    simp [h.2]
  | succ n ih =>
    intro iv ts depth prev body s ts2 hlen h
    have hA : ts.tail.length = ts.length - 1 := List.length_tail _
    have h1 := skip_if_length_le TOKEN_SEMICOLON (skip_semantic ts.tail.tail.tail)
    have h2 := skip_semantic_length_le ts.tail.tail.tail
    have h3 := length_tail_le ts.tail.tail
    have h4 := length_tail_le ts.tail
    have h5 := skip_if_length_le TOKEN_SEMICOLON
      (skip_semantic (skip_if TOKEN_IDENTIFIER ts.tail.tail))
    have h6 := skip_semantic_length_le (skip_if TOKEN_IDENTIFIER ts.tail.tail)
    have h7 := skip_if_length_le TOKEN_IDENTIFIER ts.tail.tail
    rw [parse_function_body_to_glsl] at h
    dsimp only at h
    repeat' split at h
    all_goals first
      | (injection h with h'
         have hq := congrArg Prod.snd h'
         dsimp only at hq
         rw [← hq]
         try exact le_refl _)
      | (refine le_trans (ih iv _ _ _ _ s ts2 ?_ h) ?_ <;> omega)
      | simp at h

theorem parse_new_function_shrink {ts : List Token} {fn : FXFunction} {ts2 : List Token}
    (hne : ts ≠ []) (h : parse_new_function ts = .ok (fn, ts2)) :
    ts2.length < ts.length := by
  have hpos : 0 < ts.length := List.length_pos.mpr hne
  have htail : ts.tail.length = ts.length - 1 := List.length_tail _
  rw [parse_new_function] at h
  dsimp only at h
  have hname : ((if (cur0 ts.tail).type = TOKEN_IDENTIFIER then
      ((cur0 ts.tail).text, ts.tail.tail)
      else (if (cur0 ts).type = TOKEN_VERTEX_SHADER then "vertex" else "fragment",
        ts.tail)).2).length ≤ ts.tail.length := by
    split
    · exact length_tail_le _
    · exact le_refl _
  split at h
  · exact absurd h (by simp)
  · rename_i ts4 hp4
    have hps := parse_params_le _ _ _ (le_refl _) hp4
    have hq3 := pexpect_length_le TOKEN_LPAREN
      ((if (cur0 ts.tail).type = TOKEN_IDENTIFIER then ((cur0 ts.tail).text, ts.tail.tail)
        else (if (cur0 ts).type = TOKEN_VERTEX_SHADER then "vertex" else "fragment",
          ts.tail)).2)
    have hq5 := pexpect_length_le TOKEN_RPAREN ts4
    have hq6 := pexpect_length_le TOKEN_LBRACE (pexpect TOKEN_RPAREN ts4).2
    split at h
    · exact absurd h (by simp)
    · rename_i body ts7 hb7
      have hbody := parse_function_body_le _ _ _ _ _ _ _ _ (le_refl _) hb7
      have hq8 := pexpect_length_le TOKEN_RBRACE ts7
      injection h with h'
      have hq := congrArg Prod.snd h'
      dsimp only at hq
      rw [← hq]
      omega

/-- The leading uniform/input loop of `parse_standalone_shader` from
fxc.c.  (As called from `parse_shader_file` the current token is always
`vertex_shader`/`fragment_shader`, so this loop never executes — the
declarations preceding the block have already been consumed as pending
declarations by `parse_shader_file` itself.) -/
def parse_local_decls : List Token → Except Unit (List FXUniform × List FXInput × List Token)
  | ts =>
    if (cur0 ts).type = TOKEN_UNIFORM then
      match hu : parse_uniform ts with
      | .error e => .error e
      | .ok (u, ts1) =>
        match parse_local_decls ts1 with
        | .error e => .error e
        | .ok (us, ins, ts2) => .ok (u :: us, ins, ts2)
    else if (cur0 ts).type = TOKEN_INPUT then
      match hi : parse_input ts with
      | .error e => .error e
      | .ok (i, ts1) =>
        match parse_local_decls ts1 with
        | .error e => .error e
        | .ok (us, ins, ts2) => .ok (us, i :: ins, ts2)
    else .ok ([], [], ts)
  termination_by ts => ts.length
  decreasing_by
  · exact parse_uniform_shrink hu
  · exact parse_input_shrink hi

theorem parse_local_decls_le : ∀ (n : Nat) (ts : List Token) (us : List FXUniform)
    (ins : List FXInput) (ts2 : List Token), ts.length ≤ n →
    parse_local_decls ts = .ok (us, ins, ts2) → ts2.length ≤ ts.length := by
  intro n
  induction n with
  | zero =>
    intro ts us ins ts2 hlen h
    have hts : ts = [] := List.length_eq_zero.mp (Nat.le_zero.mp hlen)
    subst hts
    rw [parse_local_decls] at h
    simp [cur0] at h
    simp [h.2.2]
  | succ n ih =>
    intro ts us ins ts2 hlen h
    rw [parse_local_decls] at h
    split at h
    · rename_i hu
      split at h
      · exact absurd h (by simp)
      · rename_i u ts1 hpu
        have hsh := parse_uniform_shrink hpu
        split at h
        · exact absurd h (by simp)
        · rename_i us1 ins1 tsB hrec
          injection h with h'
          have hq := congrArg (fun x => x.2.2) h'
          dsimp only at hq
          rw [← hq]
          have := ih ts1 us1 ins1 tsB (by omega) hrec
          omega
    · split at h
      · rename_i hni hi
        split at h
        · exact absurd h (by simp)
        · rename_i i ts1 hpi
          have hsh := parse_input_shrink hpi
          split at h
          · exact absurd h (by simp)
          · rename_i us1 ins1 tsB hrec
            injection h with h'
            have hq := congrArg (fun x => x.2.2) h'
            dsimp only at hq
            rw [← hq]
            have := ih ts1 us1 ins1 tsB (by omega) hrec
            omega
      · injection h with h'
        have hq := congrArg (fun x => x.2.2) h'
        dsimp only at hq
        rw [← hq]

/-- `parse_standalone_shader` from fxc.c: a standalone modern shader.
The ShaderDef name is `"vertex"` or `"fragment"` according to the leading
keyword — never the identifier naming the function inside the block. -/
def parse_standalone_shader (ts : List Token) : Except Unit (FXShader × List Token) :=
  let shader_type := (cur0 ts).type
  let name := if shader_type = TOKEN_VERTEX_SHADER then "vertex" else "fragment"
  match parse_local_decls ts with
  | .error e => .error e
  | .ok (us, ins, ts1) =>
    match parse_new_function ts1 with
    | .error e => .error e
    | .ok (fn, ts2) => .ok (⟨name, us, ins, [fn]⟩, ts2)

theorem parse_standalone_shader_shrink {ts : List Token} {s : FXShader} {ts2 : List Token}
    (hne : ts ≠ []) (h : parse_standalone_shader ts = .ok (s, ts2)) :
    ts2.length < ts.length := by
  have hpos : 0 < ts.length := List.length_pos.mpr hne
  rw [parse_standalone_shader] at h
  split at h
  · exact absurd h (by simp)
  · rename_i us ins ts1 hld
    have hle := parse_local_decls_le _ _ _ _ _ (le_refl _) hld
    split at h
    · exact absurd h (by simp)
    · rename_i fn tsB hnf
      injection h with h'
      have hq := congrArg Prod.snd h'
      dsimp only at hq
      rw [← hq]
      by_cases h1 : ts1 = []
      · subst h1
        rw [parse_new_function] at hnf
        simp [cur0, pexpect, parse_params, parse_function_body_to_glsl] at hnf
        rw [hnf.2]
        simpa using hpos
      · exact lt_of_lt_of_le (parse_new_function_shrink h1 hnf) hle

/-- The block-body loop of `parse_shader` from fxc.c: `uniform`-decl /
`input`-decl / `void`-function until `}` (or end of input); any other
token is a fatal parse error (`exit(1)`). -/
def parse_shader_body : List Char → List Token →
    Except Unit (List FXUniform × List FXInput × List FXFunction × List Token)
  | src, ts =>
    if (cur0 ts).type = TOKEN_RBRACE ∨ (cur0 ts).type = TOKEN_EOF then .ok ([], [], [], ts)
    else if (cur0 ts).type = TOKEN_UNIFORM then
      match hu : parse_uniform ts with
      | .error e => .error e
      | .ok (u, ts1) =>
        match parse_shader_body src ts1 with
        | .error e => .error e
        | .ok (us, ins, fns, ts2) => .ok (u :: us, ins, fns, ts2)
    else if (cur0 ts).type = TOKEN_INPUT then
      match hi : parse_input ts with
      | .error e => .error e
      | .ok (i, ts1) =>
        match parse_shader_body src ts1 with
        | .error e => .error e
        | .ok (us, ins, fns, ts2) => .ok (us, i :: ins, fns, ts2)
    else if hv : (cur0 ts).type = TOKEN_VOID then
      match hf : parse_function src ts with
      | .error e => .error e
      | .ok (fn, ts1) =>
        match parse_shader_body src ts1 with
        | .error e => .error e
        | .ok (us, ins, fns, ts2) => .ok (us, ins, fn :: fns, ts2)
    else .error ()
  termination_by _ ts => ts.length
  decreasing_by
  · exact parse_uniform_shrink hu
  · exact parse_input_shrink hi
  · exact parse_function_shrink hv hf

theorem parse_shader_body_le : ∀ (n : Nat) (src : List Char) (ts : List Token)
    (us : List FXUniform) (ins : List FXInput) (fns : List FXFunction) (ts2 : List Token),
    ts.length ≤ n → parse_shader_body src ts = .ok (us, ins, fns, ts2) →
    ts2.length ≤ ts.length := by
  intro n
  induction n with
  | zero =>
    intro src ts us ins fns ts2 hlen h
    have hts : ts = [] := List.length_eq_zero.mp (Nat.le_zero.mp hlen)
    subst hts
    rw [parse_shader_body] at h
    simp [cur0] at h
    simp [h.2.2.2]
  | succ n ih =>
    intro src ts us ins fns ts2 hlen h
    rw [parse_shader_body] at h
    split at h
    · injection h with h'
      have hq := congrArg (fun x => x.2.2.2) h'
      dsimp only at hq
      rw [← hq]
    · split at h
      · rename_i hu
        split at h
        · exact absurd h (by simp)
        · rename_i u ts1 hpu
          have hsh := parse_uniform_shrink hpu
          split at h
          · exact absurd h (by simp)
          · rename_i us1 ins1 fns1 tsB hrec
            injection h with h'
            have hq := congrArg (fun x => x.2.2.2) h'
            dsimp only at hq
            rw [← hq]
            have := ih src ts1 us1 ins1 fns1 tsB (by omega) hrec
            omega
      · split at h
        · rename_i hni hi
          split at h
          · exact absurd h (by simp)
          · rename_i i ts1 hpi
            have hsh := parse_input_shrink hpi
            split at h
            · exact absurd h (by simp)
            · rename_i us1 ins1 fns1 tsB hrec
              injection h with h'
              have hq := congrArg (fun x => x.2.2.2) h'
              dsimp only at hq
              rw [← hq]
              have := ih src ts1 us1 ins1 fns1 tsB (by omega) hrec
              omega
        · split at h
          · rename_i hv
            split at h
            · exact absurd h (by simp)
            · rename_i fn ts1 hpf
              have hsh := parse_function_shrink hv hpf
              split at h
              · exact absurd h (by simp)
              · rename_i us1 ins1 fns1 tsB hrec
                injection h with h'
                have hq := congrArg (fun x => x.2.2.2) h'
                dsimp only at hq
                rw [← hq]
                have := ih src ts1 us1 ins1 fns1 tsB (by omega) hrec
                omega
          · exact absurd h (by simp)

/-- `parse_shader` from fxc.c (legacy `shader NAME { ... }` block).
Faithfully reproduced quirk: as in `parse_function`, the successful
`parser_expect(p, TOKEN_IDENTIFIER, "shader name")` advances *past* the
name, so the recorded shader name is the text of the following token —
normally the opening `"\x7b"`. -/
def parse_shader (src : List Char) (ts : List Token) : Except Unit (FXShader × List Token) :=
  let ts1 := (pexpect TOKEN_SHADER ts).2
  let ts2 := (pexpect TOKEN_IDENTIFIER ts1).2
  let name := (cur0 ts2).text
  let ts3 := (pexpect TOKEN_LBRACE ts2).2
  match parse_shader_body src ts3 with
  | .error e => .error e
  | .ok (us, ins, fns, ts4) =>
    let ts5 := (pexpect TOKEN_RBRACE ts4).2
    .ok (⟨name, us, ins, fns⟩, ts5)

theorem parse_shader_shrink {src : List Char} {ts : List Token} {s : FXShader}
    {ts2 : List Token} (hs : (cur0 ts).type = TOKEN_SHADER)
    (h : parse_shader src ts = .ok (s, ts2)) : ts2.length < ts.length := by
  have hne : ts ≠ [] := by
    intro he
    rw [he] at hs
    simp [cur0] at hs
  have hpos : 0 < ts.length := List.length_pos.mpr hne
  have htl : ts.tail.length = ts.length - 1 := List.length_tail _
  have hts1 : (pexpect TOKEN_SHADER ts).2 = ts.tail := by
    rw [pexpect, if_pos hs]
  rw [parse_shader, hts1] at h
  dsimp only at h
  have h2 := pexpect_length_le TOKEN_IDENTIFIER ts.tail
  have h3 := pexpect_length_le TOKEN_LBRACE (pexpect TOKEN_IDENTIFIER ts.tail).2
  split at h
  · exact absurd h (by simp)
  · rename_i us ins fns ts4 hsb
    have h4 := parse_shader_body_le _ src _ _ _ _ _ (le_refl _) hsb
    have h5 := pexpect_length_le TOKEN_RBRACE ts4
    injection h with h'
    have hq := congrArg Prod.snd h'
    dsimp only at hq
    rw [← hq]
    omega

/-- `copy_uniform_list` from fxc.c: node-by-node copy preserving order. -/
def copy_uniform_list (src : List FXUniform) : List FXUniform :=
  src.map (fun u => ⟨u.type, u.name⟩)

/-- `copy_input_list` from fxc.c. -/
def copy_input_list (src : List FXInput) : List FXInput :=
  src.map (fun i => ⟨i.type, i.name⟩)

/-- The top-level loop of `parse_shader_file` from fxc.c.
`pend_us`/`pend_ins` are the buffered top-level (pending) declarations.
On a standalone shader, the pending lists — when non-empty — *replace*
the shader's own lists via `copy_uniform_list`/`copy_input_list` (the
local lists are always empty anyway, see `parse_local_decls`). -/
def parse_shader_file_loop : List Char → List Token → List FXUniform → List FXInput →
    Except Unit (List FXShader)
  | src, ts, pend_us, pend_ins =>
    if (cur0 ts).type = TOKEN_EOF then .ok []
    else if hs : (cur0 ts).type = TOKEN_SHADER then
      match hps : parse_shader src ts with
      | .error e => .error e
      | .ok (s, ts1) =>
        match parse_shader_file_loop src ts1 pend_us pend_ins with
        | .error e => .error e
        | .ok rest => .ok (s :: rest)
    else if (cur0 ts).type = TOKEN_UNIFORM then
      match hu : parse_uniform ts with
      | .error e => .error e
      | .ok (u, ts1) => parse_shader_file_loop src ts1 (pend_us ++ [u]) pend_ins
    else if (cur0 ts).type = TOKEN_INPUT then
      match hi : parse_input ts with
      | .error e => .error e
      | .ok (i, ts1) => parse_shader_file_loop src ts1 pend_us (pend_ins ++ [i])
    else if (cur0 ts).type = TOKEN_VERTEX_SHADER ∨
        (cur0 ts).type = TOKEN_FRAGMENT_SHADER then
      match hss : parse_standalone_shader ts with
      | .error e => .error e
      | .ok (s, ts1) =>
        let s1 := if pend_us ≠ [] then { s with uniforms := copy_uniform_list pend_us } else s
        let s2 := if pend_ins ≠ [] then { s1 with inputs := copy_input_list pend_ins } else s1
        match parse_shader_file_loop src ts1 pend_us pend_ins with
        | .error e => .error e
        | .ok rest => .ok (s2 :: rest)
    else .error ()
  termination_by _ ts _ _ => ts.length
  decreasing_by
  · exact parse_shader_shrink hs hps
  · exact parse_uniform_shrink hu
  · exact parse_input_shrink hi
  · refine parse_standalone_shader_shrink ?_ hss
    rename_i hg _ _ _
    intro he
    rw [he] at hg
    simp [cur0] at hg

/-- `parse_shader_file` from fxc.c: the whole-file parser (the initial
`parser_advance` loads the first token, i.e. the head of the stream). -/
def parse_shader_file (src : List Char) (ts : List Token) : Except Unit (List FXShader) :=
  parse_shader_file_loop src ts [] []

/-! ## Code generation -/

/-- Sequential `fprintf` of one string per list element, as the C
generation loops do. -/
def concat_all : List String → String
  | [] => ""
  | x :: l => x ++ concat_all l

/-- `write_glsl_header` from fxc.c. -/
def write_glsl_header : String :=
  "#version 330 core\nprecision highp float;\n\n"

/-- `write_uniforms` from fxc.c: one `uniform <type> <name>;` line per
declared uniform, in order, then a blank line if the list is non-empty. -/
def write_uniforms (uniforms : List FXUniform) : String :=
  concat_all (uniforms.map (fun u => "uniform " ++ u.type ++ " " ++ u.name ++ ";\n")) ++
    (if uniforms ≠ [] then "\n" else "")

/-- The loop of `write_inputs` from fxc.c, carrying the `location`
counter (incremented only on the vertex path). -/
def write_inputs_lines (is_vertex : Bool) (location : Nat) : List FXInput → String
  | [] => ""
  | i :: rest =>
    (if is_vertex then
      "layout(location = " ++ toString location ++ ") in " ++ i.type ++ " " ++ i.name ++ ";\n"
     else
      "in " ++ i.type ++ " " ++ i.name ++ ";\n") ++
    write_inputs_lines is_vertex (if is_vertex then location + 1 else location) rest

/-- `write_inputs` from fxc.c: the input block, then a blank line if the
list is non-empty. -/
def write_inputs (inputs : List FXInput) (is_vertex : Bool) : String :=
  write_inputs_lines is_vertex 0 inputs ++ (if inputs ≠ [] then "\n" else "")

/-- `write_vertex_outputs_as_fragment_inputs` from fxc.c: the fixed,
hard-coded fragment-stage `in` block. -/
def write_vertex_outputs_as_fragment_inputs : String :=
  "in vec3 v_normal;\nin vec3 v_position;\nin vec2 v_texCoord;\n\n"

/-- `write_function` from fxc.c.  The `inputs` parameter is unused
(`(void)inputs` in the source).  A function that is neither vertex nor
fragment writes nothing. -/
def write_function (fn : FXFunction) (inputs : List FXInput) : String :=
  if fn.is_vertex then
    "void main() \x7b\n" ++ (match fn.statements with | some s => s | none => "") ++ "\x7d\n"
  else if fn.is_fragment then
    "out vec4 fragColor;\n\nvoid main() \x7b\n" ++
      (match fn.statements with | some s => s | none => "") ++ "\x7d\n"
  else ""

/-- The selection loop at the top of `generate_glsl` from fxc.c:

    for (fn = shader->functions; fn; fn = fn->next) \x7b
        if (fn->is_vertex) vertex_fn = fn;
        if (fn->is_fragment) fragment_fn = fn;
    \x7d

Each match *overwrites* the previous one, so the selected function of a
stage is the LAST one of that stage in list order. -/
def find_stage_functions (fns : List FXFunction) : Option FXFunction × Option FXFunction :=
  fns.foldl
    (fun acc fn =>
      ((if fn.is_vertex then some fn else acc.1),
       (if fn.is_fragment then some fn else acc.2)))
    (none, none)

/-- `generate_glsl` from fxc.c, modelled as the list of `(path, contents)`
files it writes: the `.vert.glsl` file if a vertex function was selected
and the `.frag.glsl` file if a fragment function was selected. -/
def generate_glsl (shader : FXShader) (output_path : String) : List (String × String) :=
  let vert_path := output_path ++ ".vert.glsl"
  let frag_path := output_path ++ ".frag.glsl"
  let fns := find_stage_functions shader.functions
  (match fns.1 with
   | some vertex_fn =>
     [(vert_path,
       write_glsl_header ++ write_uniforms shader.uniforms ++
       write_inputs shader.inputs true ++ write_function vertex_fn shader.inputs)]
   | none => []) ++
  (match fns.2 with
   | some fragment_fn =>
     [(frag_path,
       write_glsl_header ++ write_uniforms shader.uniforms ++
       write_vertex_outputs_as_fragment_inputs ++ write_function fragment_fn shader.inputs)]
   | none => [])

/-- `generate_metadata` from fxc.c, modelled as the contents of the
`.meta` file.  Both count lines print the literal constant `0`
(`fprintf(f, "uniforms %d\n", 0)`), regardless of the list lengths. -/
def generate_metadata (shader : FXShader) : String :=
  "shader " ++ shader.name ++ "\n" ++
  "uniforms " ++ toString (0 : Nat) ++ "\n" ++
  concat_all (shader.uniforms.map (fun u => "uniform " ++ u.type ++ " " ++ u.name ++ "\n")) ++
  "inputs " ++ toString (0 : Nat) ++ "\n" ++
  concat_all (shader.inputs.map (fun i => "input " ++ i.type ++ " " ++ i.name ++ "\n"))

/-- The per-shader body of the output loop in `main` from fxc.c:
`output_path = <input> "_" <shader name>`, then `generate_glsl` (the
optional `.vert.glsl`/`.frag.glsl`), then `generate_metadata` (the
`.meta` file, written unconditionally). -/
def shader_outputs (input_path : String) (s : FXShader) : List (String × String) :=
  let output_path := input_path ++ "_" ++ s.name
  generate_glsl s output_path ++ [(output_path ++ ".meta", generate_metadata s)]

/-- The compilation pipeline of `main` from fxc.c (actual file I/O
aside): lex and parse the source bytes, fail if parsing failed or no
shader was found (`if (!shaders) return 1`), else emit the output files
of every parsed shader in order. -/
def fxc_main (input_path : String) (src : List Char) : Except Unit (List (String × String)) :=
  match parse_shader_file src (tokenize ⟨src, 0, 1, 1⟩) with
  | .error e => .error e
  | .ok shaders =>
    if shaders = [] then .error ()
    else .ok (List.flatten (shaders.map (fun s => shader_outputs input_path s)))

/-- Regrouping helper for string appends (`++` is left-associative). -/
theorem string_fold3 (a x y z w : String) (h : x ++ y ++ z = w) :
    a ++ x ++ y ++ z = a ++ w := by
  rw [String.append_assoc, String.append_assoc, ← String.append_assoc x y z, h]

/-- C3.  For every ShaderDef, the emitted manifest is exactly the line
`shader <name>`, then the line `uniforms 0` — the count field is the
literal `0` regardless of the actual number of declared uniforms — then
one `uniform <type> <name>` line per declared uniform in declaration
order, then the line `inputs 0` (again the literal `0`), then one
`input <type> <name>` line per declared input in declaration order. -/
theorem fx_C3_metadata_format (s : FXShader) :
    generate_metadata s =
      "shader " ++ s.name ++ "\n" ++
      "uniforms 0\n" ++
      concat_all (s.uniforms.map (fun u => "uniform " ++ u.type ++ " " ++ u.name ++ "\n")) ++
      "inputs 0\n" ++
      concat_all (s.inputs.map (fun i => "input " ++ i.type ++ " " ++ i.name ++ "\n")) := by
  rw [generate_metadata]
  rw [string_fold3 ("shader " ++ s.name ++ "\n") "uniforms " (toString (0 : Nat)) "\n"
    "uniforms 0\n" (by decide)]
  rw [string_fold3 _ "inputs " (toString (0 : Nat)) "\n" "inputs 0\n" (by decide)]

/-! ## Claim C4: vertex input locations -/

theorem write_inputs_lines_enumFrom (ins : List FXInput) (loc : Nat) :
    write_inputs_lines true loc ins =
      concat_all ((ins.enumFrom loc).map (fun p =>
        "layout(location = " ++ toString p.1 ++ ") in " ++ p.2.type ++ " " ++ p.2.name ++ ";\n")) := by
  induction ins generalizing loc with
  | nil => rfl
  | cons i rest ih =>
    rw [write_inputs_lines, List.enumFrom_cons, List.map_cons, concat_all]
    rw [if_pos rfl, if_pos rfl, ih (loc + 1)]

/-- C4.  For every ShaderDef whose function list makes the generator
select a vertex function, the generated `.vert.glsl` text contains —
between the uniform block and the `main` wrapper, in declaration order —
exactly one line `layout(location = i) in <type> <name>;` per declared
input, where `i` is the input's 0-based ordinal position in declaration
order (`List.enum`), independent of the input's type (and of any
semantic annotation, which never reaches the ShaderDef's input list). -/
theorem fx_C4_input_locations (s : FXShader) (output_path : String) (fn : FXFunction)
    (hv : (find_stage_functions s.functions).1 = some fn) :
    ∃ restFiles, generate_glsl s output_path =
      (output_path ++ ".vert.glsl",
        write_glsl_header ++ write_uniforms s.uniforms ++
        (concat_all (s.inputs.enum.map (fun p =>
          "layout(location = " ++ toString p.1 ++ ") in " ++ p.2.type ++ " " ++ p.2.name ++ ";\n")) ++
          (if s.inputs ≠ [] then "\n" else "")) ++
        write_function fn s.inputs) :: restFiles := by
  refine ⟨(match (find_stage_functions s.functions).2 with
    | some fragment_fn =>
      [(output_path ++ ".frag.glsl",
        write_glsl_header ++ write_uniforms s.uniforms ++
        write_vertex_outputs_as_fragment_inputs ++ write_function fragment_fn s.inputs)]
    | none => []), ?_⟩
  have hwi : write_inputs s.inputs true =
      concat_all (s.inputs.enum.map (fun p =>
        "layout(location = " ++ toString p.1 ++ ") in " ++ p.2.type ++ " " ++ p.2.name ++ ";\n")) ++
        (if s.inputs ≠ [] then "\n" else "") := by
    rw [write_inputs, write_inputs_lines_enumFrom]
    rfl
  rw [generate_glsl, hv, ← hwi]
  rfl

/-! ## Claim C5: fixed fragment varyings -/

/-- If the selection loop of `generate_glsl` picked a fragment function,
the picked function has `is_fragment` set. -/
theorem find_stage_functions_snd_is_fragment (fns : List FXFunction) :
    ∀ (acc : Option FXFunction × Option FXFunction) (fn : FXFunction),
      (∀ g, acc.2 = some g → g.is_fragment = true) →
      (fns.foldl (fun acc fn =>
        ((if fn.is_vertex then some fn else acc.1),
         (if fn.is_fragment then some fn else acc.2))) acc).2 = some fn →
      fn.is_fragment = true := by
  induction fns with
  | nil => intro acc fn hacc h; exact hacc fn h
  | cons g rest ih =>
    intro acc fn hacc h
    refine ih _ fn ?_ h
    intro g1 hg1
    dsimp only at hg1
    split at hg1
    · rename_i hgf
      injection hg1 with h1
      rw [← h1]
      exact hgf
    · exact hacc g1 hg1

/-- C5.  For every ShaderDef for which the generator selects a fragment
function (tagged fragment-stage only, as both parsers guarantee), the
generated `.frag.glsl` text consists of the header, the uniform block,
then exactly the three fixed `in` declarations `vec3 v_normal`,
`vec3 v_position`, `vec2 v_texCoord`, then `out vec4 fragColor;` and the
`main` wrapper — with no dependence on the ShaderDef's declared inputs
(second conjunct: the fragment file is unchanged under any replacement
of the input list) nor on anything the vertex stage declared. -/
theorem fx_C5_fragment_fixed_varyings (s : FXShader) (output_path : String)
    (fn : FXFunction) (hf : (find_stage_functions s.functions).2 = some fn)
    (hnv : fn.is_vertex = false) :
    (∃ preFiles, generate_glsl s output_path = preFiles ++
      [(output_path ++ ".frag.glsl",
        write_glsl_header ++ write_uniforms s.uniforms ++
        "in vec3 v_normal;\nin vec3 v_position;\nin vec2 v_texCoord;\n\n" ++
        ("out vec4 fragColor;\n\nvoid main() \x7b\n" ++
          (match fn.statements with | some b => b | none => "") ++ "\x7d\n"))]) ∧
    (∀ ins1 ins2 : List FXInput,
      List.filter (fun f => f.1 = output_path ++ ".frag.glsl")
        (generate_glsl { s with inputs := ins1 } output_path) =
      List.filter (fun f => f.1 = output_path ++ ".frag.glsl")
        (generate_glsl { s with inputs := ins2 } output_path)) := by
  have hff : fn.is_fragment = true :=
    find_stage_functions_snd_is_fragment s.functions (none, none) fn (by simp) hf
  have hwf : ∀ ins : List FXInput, write_function fn ins =
      "out vec4 fragColor;\n\nvoid main() \x7b\n" ++
        (match fn.statements with | some b => b | none => "") ++ "\x7d\n" := by
    intro ins
    rw [write_function, if_neg (by simp [hnv]), if_pos (by simp [hff])]
  constructor
  · refine ⟨(match (find_stage_functions s.functions).1 with
      | some vertex_fn =>
        [(output_path ++ ".vert.glsl",
          write_glsl_header ++ write_uniforms s.uniforms ++
          write_inputs s.inputs true ++ write_function vertex_fn s.inputs)]
      | none => []), ?_⟩
    rw [generate_glsl, hf]
    dsimp only
    rw [hwf s.inputs]
    rfl
  · intro ins1 ins2
    rw [generate_glsl, generate_glsl]
    dsimp only
    rw [hf]
    have hne : ¬(output_path ++ ".vert.glsl" = output_path ++ ".frag.glsl") := by
      intro hcontra
      have := congrArg (fun x => x.toList.reverse) hcontra
      simp at this
    rcases hv : (find_stage_functions s.functions).1 with _ | vfn
    · simp [hwf]
    · simp only [List.filter_append, List.filter_cons, List.filter_nil]
      simp [hne, hwf]

/-! ## Claim C1: stage-function selection ("first wins" is false; last wins) -/

theorem getLast?_cons_or {α : Type} (a : α) (l : List α) :
    (a :: l).getLast? = l.getLast?.or (some a) := by
  induction l generalizing a with
  | nil => rfl
  | cons b l ih =>
    rw [List.getLast?_cons_cons, ih b]
    cases l.getLast? <;> rfl

theorem find_stage_functions_fst_eq (fns : List FXFunction) :
    ∀ (acc : Option FXFunction × Option FXFunction),
      (fns.foldl (fun acc fn =>
        ((if fn.is_vertex then some fn else acc.1),
         (if fn.is_fragment then some fn else acc.2))) acc).1 =
      ((fns.filter (fun f => f.is_vertex)).getLast?).or acc.1 := by
  induction fns with
  | nil => intro acc; rfl
  | cons g rest ih =>
    intro acc
    rw [List.foldl_cons, ih, List.filter_cons]
    dsimp only
    by_cases hg : g.is_vertex = true
    · rw [if_pos hg]
      rw [if_pos hg]
      rw [getLast?_cons_or]
      cases (rest.filter (fun f => f.is_vertex)).getLast? <;> rfl
    · rw [if_neg hg, if_neg hg]

theorem find_stage_functions_snd_eq (fns : List FXFunction) :
    ∀ (acc : Option FXFunction × Option FXFunction),
      (fns.foldl (fun acc fn =>
        ((if fn.is_vertex then some fn else acc.1),
         (if fn.is_fragment then some fn else acc.2))) acc).2 =
      ((fns.filter (fun f => f.is_fragment)).getLast?).or acc.2 := by
  induction fns with
  | nil => intro acc; rfl
  | cons g rest ih =>
    intro acc
    rw [List.foldl_cons, ih, List.filter_cons]
    dsimp only
    by_cases hg : g.is_fragment = true
    · rw [if_pos hg]
      rw [if_pos hg]
      rw [getLast?_cons_or]
      cases (rest.filter (fun f => f.is_fragment)).getLast? <;> rfl
    · rw [if_neg hg, if_neg hg]

/-- C1, amended.  For every ShaderDef, the code generator selects the
LAST function of each stage in list order (each match in the selection
loop overwrites the previous one): the `.vert.glsl` file is emitted from
the last vertex-tagged function and the `.frag.glsl` file from the last
fragment-tagged function; absence of a stage skips that file. -/
theorem fx_C1_last_function_wins (s : FXShader) (output_path : String) :
    generate_glsl s output_path =
      (((s.functions.filter (fun f => f.is_vertex)).getLast?).map (fun fn =>
        (output_path ++ ".vert.glsl",
         write_glsl_header ++ write_uniforms s.uniforms ++
         write_inputs s.inputs true ++ write_function fn s.inputs))).toList ++
      (((s.functions.filter (fun f => f.is_fragment)).getLast?).map (fun fn =>
        (output_path ++ ".frag.glsl",
         write_glsl_header ++ write_uniforms s.uniforms ++
         write_vertex_outputs_as_fragment_inputs ++ write_function fn s.inputs))).toList := by
  have h1 : (find_stage_functions s.functions).1 =
      (s.functions.filter (fun f => f.is_vertex)).getLast? := by
    rw [find_stage_functions, find_stage_functions_fst_eq]
    cases (s.functions.filter (fun f => f.is_vertex)).getLast? <;> rfl
  have h2 : (find_stage_functions s.functions).2 =
      (s.functions.filter (fun f => f.is_fragment)).getLast? := by
    rw [find_stage_functions, find_stage_functions_snd_eq]
    cases (s.functions.filter (fun f => f.is_fragment)).getLast? <;> rfl
  rw [generate_glsl, h1, h2]
  cases (s.functions.filter (fun f => f.is_vertex)).getLast? <;>
    cases (s.functions.filter (fun f => f.is_fragment)).getLast? <;> rfl

/-- The first of two vertex-tagged functions in one ShaderDef. -/
def c1_fn1 : FXFunction := ⟨"vertex", true, false, none, none, some "a;"⟩

/-- The second of two vertex-tagged functions in one ShaderDef. -/
def c1_fn2 : FXFunction := ⟨"vertex", true, false, none, none, some "b;"⟩

/-- A ShaderDef whose function list contains two vertex-tagged functions. -/
def c1_shader : FXShader := ⟨"S", [], [], [c1_fn1, c1_fn2]⟩

/-- C1, counterexample.  On a ShaderDef with two vertex-tagged functions
the generator emits the `.vert.glsl` from the SECOND (last) one, not the
first: "first wins" is false. -/
theorem fx_C1_counterexample :
    generate_glsl c1_shader "o" =
      [("o.vert.glsl",
        write_glsl_header ++ write_uniforms [] ++ write_inputs [] true ++
        write_function c1_fn2 [])] ∧
    generate_glsl c1_shader "o" ≠
      [("o.vert.glsl",
        write_glsl_header ++ write_uniforms [] ++ write_inputs [] true ++
        write_function c1_fn1 [])] := by
  constructor
  · rfl
  · decide

/-! ## Claim C10: the manifest is written unconditionally -/

theorem find_stage_functions_none (fns : List FXFunction)
    (h : ∀ fn ∈ fns, fn.is_vertex = false ∧ fn.is_fragment = false) :
    find_stage_functions fns = (none, none) := by
  rw [find_stage_functions]
  induction fns with
  | nil => rfl
  | cons g rest ih =>
    rw [List.foldl_cons]
    have hg := h g (by simp)
    rw [if_neg (by simp [hg.1]), if_neg (by simp [hg.2])]
    exact ih (fun fn hfn => h fn (by simp [hfn]))

/-- C10.  For every ShaderDef, the output loop of `main` always writes
the `.meta` file; and when the ShaderDef contains no function recognized
as vertex or fragment, the `.meta` file is the only output — no
`.vert.glsl` or `.frag.glsl` is produced. -/
theorem fx_C10_meta_always_written (input_path : String) (s : FXShader) :
    ((input_path ++ "_" ++ s.name ++ ".meta", generate_metadata s) ∈
      shader_outputs input_path s) ∧
    ((∀ fn ∈ s.functions, fn.is_vertex = false ∧ fn.is_fragment = false) →
      shader_outputs input_path s =
        [(input_path ++ "_" ++ s.name ++ ".meta", generate_metadata s)]) := by
  constructor
  · rw [shader_outputs]
    exact List.mem_append_right _ (by simp)
  · intro h
    rw [shader_outputs, generate_glsl, find_stage_functions_none _ h]
    rfl

/-- A ShaderDef whose single function is recognized as neither stage (as
every normally-parsed legacy function is, its recorded name being `"("`). -/
def c10_shader : FXShader :=
  ⟨"S", [⟨"vec3", "color"⟩], [], [⟨"(", false, false, none, none, some "x"⟩]⟩

/-- C10, witness at a concrete ShaderDef with no stage function: only
the `.meta` file is produced, and it is present. -/
theorem fx_C10_witness :
    (("t.fx_S.meta", generate_metadata c10_shader) ∈ shader_outputs "t.fx" c10_shader) ∧
    shader_outputs "t.fx" c10_shader = [("t.fx_S.meta", generate_metadata c10_shader)] :=
  ⟨(fx_C10_meta_always_written "t.fx" c10_shader).1,
   (fx_C10_meta_always_written "t.fx" c10_shader).2 (by decide)⟩

/-! ## Claim C8: determinism -/

/-- C8.  Compilation is deterministic: the whole pipeline (lex, parse,
generate, emit) is a pure function of the input path and the input byte
buffer, so two runs on identical inputs produce byte-identical
`.vert.glsl`, `.frag.glsl` and `.meta` texts (the embedded pipeline
consults nothing besides its two arguments, mirroring the C code, which
reads no clock, randomness, or environment during compilation). -/
theorem fx_C8_deterministic (input_path1 input_path2 : String) (src1 src2 : List Char)
    (hp : input_path1 = input_path2) (hs : src1 = src2) :
    fxc_main input_path1 src1 = fxc_main input_path2 src2 := by
  rw [hp, hs]

/-- C8, witness: two runs on the same concrete input agree. -/
theorem fx_C8_witness :
    fxc_main "t.fx" "uniform mat4 m;".toList = fxc_main "t.fx" "uniform mat4 m;".toList :=
  fx_C8_deterministic "t.fx" "t.fx" "uniform mat4 m;".toList "uniform mat4 m;".toList rfl rfl

/-! ## Claim C6: `out` declarations in modern function bodies -/

/-- C6.  For an `out <Type> <Identifier> [: SEMANTIC] ;` declaration at
the head of a modern-dialect body token stream (in any transformer state
`depth`/`prev`/`acc`): in a vertex body the transformer emits exactly
`out <Type> <Identifier>;\n` — the semantic annotation is dropped — and
continues after the declaration; in a fragment body the declaration is
consumed and contributes nothing to the output text.  (The `if` wrapping
each right-hand side is the transformer's 4090-byte overflow check,
which fires at the bottom of every loop iteration.) -/
theorem fx_C6_out_decl_rewrite (outTok tyTok idTok semiTok : Token)
    (semPart rest : List Token) (depth : Nat) (prev : TokenType) (acc : String)
    (hout : outTok.type = TOKEN_OUT)
    (hty1 : tcode TOKEN_FLOAT ≤ tcode tyTok.type)
    (hty2 : tcode tyTok.type ≤ tcode TOKEN_SAMPLERCUBE)
    (hid : idTok.type = TOKEN_IDENTIFIER)
    (hsemi : semiTok.type = TOKEN_SEMICOLON)
    (hsem : semPart = [] ∨ ∃ c s1, semPart = [c, s1] ∧
      c.type = TOKEN_COLON ∧ s1.type = TOKEN_IDENTIFIER) :
    (parse_function_body_to_glsl true
        (outTok :: tyTok :: idTok :: (semPart ++ semiTok :: rest)) depth prev acc =
      if 4090 ≤ (acc ++ "out " ++ tyTok.text ++ " " ++ idTok.text ++ ";\n").length then
        .error ()
      else parse_function_body_to_glsl true rest depth prev
        (acc ++ "out " ++ tyTok.text ++ " " ++ idTok.text ++ ";\n")) ∧
    (parse_function_body_to_glsl false
        (outTok :: tyTok :: idTok :: (semPart ++ semiTok :: rest)) depth prev acc =
      if 4090 ≤ acc.length then .error ()
      else parse_function_body_to_glsl false rest depth prev acc) := by
  have hskip : skip_if TOKEN_SEMICOLON (skip_semantic (semPart ++ semiTok :: rest)) = rest := by
    rcases hsem with hsem | ⟨c, s1, hsem, hc, hs1⟩ <;> subst hsem
    · rw [skip_semantic, if_neg (by simp [cur0, hsemi]), skip_if,
        if_pos (by simp [cur0, hsemi])]
      rfl
    · rw [skip_semantic]
      rw [if_pos (by simp [cur0, hc])]
      dsimp only [List.cons_append, List.tail_cons]
      rw [if_pos (by simp [cur0, hs1])]
      rw [skip_if, if_pos (by simp [cur0, hsemi])]
      rfl
  constructor
  · rw [parse_function_body_to_glsl]
    rw [if_neg (by simp [cur0, hout]), if_neg (by simp [cur0, hout]),
      if_neg (by simp [cur0, hout]), if_pos (by simp [cur0, hout])]
    dsimp only [List.tail_cons, cur0, List.headD]
    rw [if_neg (by omega), if_pos rfl, if_pos hid, hskip]
  · have hida : skip_if TOKEN_IDENTIFIER (idTok :: (semPart ++ semiTok :: rest)) =
        semPart ++ semiTok :: rest := by
      rw [skip_if, if_pos (by simp [cur0, hid])]
      rfl
    have hfrag : skip_if TOKEN_SEMICOLON (skip_semantic
        (skip_if TOKEN_IDENTIFIER (idTok :: (semPart ++ semiTok :: rest)))) = rest := by
      rw [hida]
      exact hskip
    rw [parse_function_body_to_glsl]
    rw [if_neg (by simp [cur0, hout]), if_neg (by simp [cur0, hout]),
      if_neg (by simp [cur0, hout]), if_pos (by simp [cur0, hout])]
    dsimp only [List.tail_cons, cur0, List.headD]
    rw [if_neg (by omega), if_neg (by simp), hfrag]

/-! ## Claim C7: the form of numeric tokens -/

/-- The numeric-literal shape asserted by the specification:
`[0-9]+(\.[0-9]+)?` — one or more digits, optionally followed by a dot
and ONE OR MORE digits; in particular no match ends in a bare dot. -/
def claim_num_format (cs : List Char) : Bool :=
  let ds := cs.takeWhile is_digit
  let rest := cs.dropWhile is_digit
  decide (ds ≠ []) &&
    (decide (rest = []) ||
      (decide (rest.head? = some '.') && decide (rest.tail ≠ []) && rest.tail.all is_digit))

/-- The numeric-literal shape the lexer actually produces:
`[0-9]+(\.[0-9]*)?` — one or more digits, optionally followed by a dot
and zero or more digits (no exponent, no sign, no suffix); a token may
end in a bare dot. -/
def lexed_num_format (cs : List Char) : Bool :=
  let ds := cs.takeWhile is_digit
  let rest := cs.dropWhile is_digit
  decide (ds ≠ []) &&
    (decide (rest = []) ||
      (decide (rest.head? = some '.') && rest.tail.all is_digit))

theorem all_takeWhile (p : Char → Bool) (l : List Char) :
    (l.takeWhile p).all p = true := by
  induction l with
  | nil => rfl
  | cons c rest ih =>
    rw [List.takeWhile_cons]
    split
    · rename_i hc
      simpa [hc] using ih
    · rfl

theorem takeWhile_of_all (p : Char → Bool) (l : List Char) (h : l.all p = true) :
    l.takeWhile p = l := by
  induction l with
  | nil => rfl
  | cons c rest ih =>
    simp only [List.all_cons, Bool.and_eq_true] at h
    rw [List.takeWhile_cons, if_pos h.1, ih h.2]

theorem dropWhile_of_all (p : Char → Bool) (l : List Char) (h : l.all p = true) :
    l.dropWhile p = [] := by
  induction l with
  | nil => rfl
  | cons c rest ih =>
    simp only [List.all_cons, Bool.and_eq_true] at h
    rw [List.dropWhile_cons, if_pos h.1, ih h.2]

theorem takeWhile_append_stop (p : Char → Bool) (l : List Char) (x : Char)
    (r : List Char) (hl : l.all p = true) (hx : p x = false) :
    (l ++ x :: r).takeWhile p = l ∧ (l ++ x :: r).dropWhile p = x :: r := by
  induction l with
  | nil =>
    constructor
    · rw [List.nil_append, List.takeWhile_cons, if_neg (by simp [hx])]
    · rw [List.nil_append, List.dropWhile_cons, if_neg (by simp [hx])]
  | cons c rest ih =>
    simp only [List.all_cons, Bool.and_eq_true] at hl
    obtain ⟨h1, h2⟩ := ih hl.2
    constructor
    · rw [List.cons_append, List.takeWhile_cons, if_pos hl.1, h1]
    · rw [List.cons_append, List.dropWhile_cons, if_pos hl.1, h2]

theorem check_keyword_ne_number (cs : List Char) :
    check_keyword cs ≠ TOKEN_NUMBER := by
  intro hcontra
  rw [check_keyword] at hcontra
  by_cases h1 : String.mk cs = "shader"
  · rw [if_pos h1] at hcontra
    exact absurd hcontra (by decide)
  · rw [if_neg h1] at hcontra
    by_cases h2 : String.mk cs = "uniform"
    · rw [if_pos h2] at hcontra
      exact absurd hcontra (by decide)
    · rw [if_neg h2] at hcontra
      by_cases h3 : String.mk cs = "input"
      · rw [if_pos h3] at hcontra
        exact absurd hcontra (by decide)
      · rw [if_neg h3] at hcontra
        by_cases h4 : String.mk cs = "void"
        · rw [if_pos h4] at hcontra
          exact absurd hcontra (by decide)
        · rw [if_neg h4] at hcontra
          by_cases h5 : String.mk cs = "out"
          · rw [if_pos h5] at hcontra
            exact absurd hcontra (by decide)
          · rw [if_neg h5] at hcontra
            by_cases h6 : String.mk cs = "vertex_shader"
            · rw [if_pos h6] at hcontra
              exact absurd hcontra (by decide)
            · rw [if_neg h6] at hcontra
              by_cases h7 : String.mk cs = "fragment_shader"
              · rw [if_pos h7] at hcontra
                exact absurd hcontra (by decide)
              · rw [if_neg h7] at hcontra
                by_cases h8 : String.mk cs = "float"
                · rw [if_pos h8] at hcontra
                  exact absurd hcontra (by decide)
                · rw [if_neg h8] at hcontra
                  by_cases h9 : String.mk cs = "vec2"
                  · rw [if_pos h9] at hcontra
                    exact absurd hcontra (by decide)
                  · rw [if_neg h9] at hcontra
                    by_cases h10 : String.mk cs = "vec3"
                    · rw [if_pos h10] at hcontra
                      exact absurd hcontra (by decide)
                    · rw [if_neg h10] at hcontra
                      by_cases h11 : String.mk cs = "vec4"
                      · rw [if_pos h11] at hcontra
                        exact absurd hcontra (by decide)
                      · rw [if_neg h11] at hcontra
                        by_cases h12 : String.mk cs = "mat4"
                        · rw [if_pos h12] at hcontra
                          exact absurd hcontra (by decide)
                        · rw [if_neg h12] at hcontra
                          by_cases h13 : String.mk cs = "sampler2D"
                          · rw [if_pos h13] at hcontra
                            exact absurd hcontra (by decide)
                          · rw [if_neg h13] at hcontra
                            by_cases h14 : String.mk cs = "samplerCube"
                            · rw [if_pos h14] at hcontra
                              exact absurd hcontra (by decide)
                            · rw [if_neg h14] at hcontra
                              exact absurd hcontra (by decide)

theorem symbol_token_type_ne_number (c : Char) :
    symbol_token_type c ≠ TOKEN_NUMBER := by
  intro hcontra
  rw [symbol_token_type] at hcontra
  by_cases h1 : c = '\x7b'
  · rw [if_pos h1] at hcontra
    exact absurd hcontra (by decide)
  · rw [if_neg h1] at hcontra
    by_cases h2 : c = '\x7d'
    · rw [if_pos h2] at hcontra
      exact absurd hcontra (by decide)
    · rw [if_neg h2] at hcontra
      by_cases h3 : c = '('
      · rw [if_pos h3] at hcontra
        exact absurd hcontra (by decide)
      · rw [if_neg h3] at hcontra
        by_cases h4 : c = ')'
        · rw [if_pos h4] at hcontra
          exact absurd hcontra (by decide)
        · rw [if_neg h4] at hcontra
          by_cases h5 : c = ';'
          · rw [if_pos h5] at hcontra
            exact absurd hcontra (by decide)
          · rw [if_neg h5] at hcontra
            by_cases h6 : c = ','
            · rw [if_pos h6] at hcontra
              exact absurd hcontra (by decide)
            · rw [if_neg h6] at hcontra
              by_cases h7 : c = '='
              · rw [if_pos h7] at hcontra
                exact absurd hcontra (by decide)
              · rw [if_neg h7] at hcontra
                by_cases h8 : c = '*'
                · rw [if_pos h8] at hcontra
                  exact absurd hcontra (by decide)
                · rw [if_neg h8] at hcontra
                  by_cases h9 : c = '.'
                  · rw [if_pos h9] at hcontra
                    exact absurd hcontra (by decide)
                  · rw [if_neg h9] at hcontra
                    by_cases h10 : c = ':'
                    · rw [if_pos h10] at hcontra
                      exact absurd hcontra (by decide)
                    · rw [if_neg h10] at hcontra
                      by_cases h11 : c = '-'
                      · rw [if_pos h11] at hcontra
                        exact absurd hcontra (by decide)
                      · rw [if_neg h11] at hcontra
                        by_cases h12 : c = '+'
                        · rw [if_pos h12] at hcontra
                          exact absurd hcontra (by decide)
                        · rw [if_neg h12] at hcontra
                          by_cases h13 : c = '/'
                          · rw [if_pos h13] at hcontra
                            exact absurd hcontra (by decide)
                          · rw [if_neg h13] at hcontra
                            by_cases h14 : c = '<'
                            · rw [if_pos h14] at hcontra
                              exact absurd hcontra (by decide)
                            · rw [if_neg h14] at hcontra
                              by_cases h15 : c = '>'
                              · rw [if_pos h15] at hcontra
                                exact absurd hcontra (by decide)
                              · rw [if_neg h15] at hcontra
                                by_cases h16 : c = '&'
                                · rw [if_pos h16] at hcontra
                                  exact absurd hcontra (by decide)
                                · rw [if_neg h16] at hcontra
                                  by_cases h17 : c = '|'
                                  · rw [if_pos h17] at hcontra
                                    exact absurd hcontra (by decide)
                                  · rw [if_neg h17] at hcontra
                                    by_cases h18 : c = '!'
                                    · rw [if_pos h18] at hcontra
                                      exact absurd hcontra (by decide)
                                    · rw [if_neg h18] at hcontra
                                      exact absurd hcontra (by decide)

theorem lexed_of_digits (c : Char) (rest : List Char) (hc : is_digit c = true) :
    lexed_num_format ((c :: rest).takeWhile is_digit) = true := by
  rw [lexed_num_format]
  have hall := all_takeWhile is_digit (c :: rest)
  rw [takeWhile_of_all _ _ hall, dropWhile_of_all _ _ hall]
  have hne : (c :: rest).takeWhile is_digit ≠ [] := by
    rw [List.takeWhile_cons, if_pos hc]
    simp
  simp [hne]

theorem lexed_of_dot (c : Char) (rest r2 : List Char) (hc : is_digit c = true) :
    lexed_num_format ((c :: rest).takeWhile is_digit ++ '.' :: (r2.takeWhile is_digit)) = true := by
  rw [lexed_num_format]
  have hall := all_takeWhile is_digit (c :: rest)
  obtain ⟨h1, h2⟩ := takeWhile_append_stop is_digit ((c :: rest).takeWhile is_digit) '.'
    (r2.takeWhile is_digit) hall (by decide)
  rw [h1, h2]
  have hne : (c :: rest).takeWhile is_digit ≠ [] := by
    rw [List.takeWhile_cons, if_pos hc]
    simp
  simp [hne, all_takeWhile]

/-- C7, amended.  Every token the lexer classifies as a numeric literal
matches `[0-9]+(\.[0-9]*)?`: one or more digits optionally followed by a
dot and ZERO or more digits — no exponent, no sign, no suffix; but the
fractional digits may be absent, so a numeric token may end in a dot. -/
theorem fx_C7_numeric_token_format (lx : Lexer)
    (h : (lexer_next lx).1.type = TOKEN_NUMBER) :
    lexed_num_format ((lexer_next lx).1.text.toList) = true := by
  rw [lexer_next] at h ⊢
  rcases hq : skip_whitespace lx with ⟨ssrc, spos, sline, scol⟩
  rw [hq] at h
  cases ssrc with
  | nil =>
    simp only [lexer_next_core] at h
    exact absurd h (by decide)
  | cons c rest =>
    simp only [lexer_next_core] at h ⊢
    split at h
    · rename_i hal
      rw [if_pos hal]
      dsimp only at h ⊢
      exact absurd h (check_keyword_ne_number _)
    · rename_i hnal
      rw [if_neg hnal]
      split at h
      · rename_i hdig
        rw [if_pos hdig]
        split at h
        · rename_i hdot
          rw [if_pos hdot]
          exact lexed_of_dot c rest _ hdig
        · rename_i hnodot
          rw [if_neg hnodot]
          exact lexed_of_digits c rest hdig
      · rename_i hndig
        rw [if_neg hndig]
        dsimp only at h
        exact absurd h (symbol_token_type_ne_number c)

/-- C7, counterexample.  On the input `1.` the lexer produces a single
numeric token whose text is `"1."` — it ends in a dot with no digits
after it, so it does not match the claimed `[0-9]+(\.[0-9]+)?`. -/
theorem fx_C7_counterexample :
    (lexer_next ⟨['1', '.'], 0, 1, 1⟩).1.type = TOKEN_NUMBER ∧
    (lexer_next ⟨['1', '.'], 0, 1, 1⟩).1.text = "1." ∧
    claim_num_format ((lexer_next ⟨['1', '.'], 0, 1, 1⟩).1.text.toList) = false := by
  refine ⟨?_, ?_, ?_⟩ <;>
    simp +decide [lexer_next, lexer_next_core, skip_whitespace, claim_num_format,
      is_digit, is_alpha]

/-- C7, witness for the amended theorem at the concrete input `7.5`. -/
theorem fx_C7_witness :
    (lexer_next ⟨['7', '.', '5'], 0, 1, 1⟩).1.type = TOKEN_NUMBER ∧
    lexed_num_format ((lexer_next ⟨['7', '.', '5'], 0, 1, 1⟩).1.text.toList) = true :=
  ⟨by simp +decide [lexer_next, lexer_next_core, skip_whitespace, is_digit, is_alpha],
   fx_C7_numeric_token_format _
     (by simp +decide [lexer_next, lexer_next_core, skip_whitespace, is_digit, is_alpha])⟩

/-! ## Claim C9: standalone shader names and output basenames -/

/-- Every output filename of one ShaderDef starts with
`<inputPath>_<shaderName>`. -/
theorem shader_outputs_basename (input_path : String) (s : FXShader) :
    ∀ f ∈ shader_outputs input_path s, ∃ suffix,
      f.1 = input_path ++ "_" ++ s.name ++ suffix := by
  intro f hf
  rw [shader_outputs] at hf
  rcases List.mem_append.mp hf with hf1 | hf2
  · rw [generate_glsl] at hf1
    rcases List.mem_append.mp hf1 with hv | hfr
    · rcases hopt : (find_stage_functions s.functions).1 with _ | vfn
      · rw [hopt] at hv
        simp at hv
      · rw [hopt] at hv
        simp only [List.mem_singleton] at hv
        exact ⟨".vert.glsl", by rw [hv]⟩
    · rcases hopt : (find_stage_functions s.functions).2 with _ | ffn
      · rw [hopt] at hfr
        simp at hfr
      · rw [hopt] at hfr
        simp only [List.mem_singleton] at hfr
        exact ⟨".frag.glsl", by rw [hfr]⟩
  · simp only [List.mem_singleton] at hf2
    exact ⟨".meta", by rw [hf2]⟩

/-- C9.  A successfully parsed standalone modern shader block is named
exactly `"vertex"` when the current token is `vertex_shader` and
`"fragment"` otherwise (in particular for `fragment_shader`) — never
after any identifier naming the function inside the block — and every
output filename for it then carries the `_<shaderName>` component built
from that name.  A modern vertex/fragment pair therefore becomes two
ShaderDefs with the distinct basenames `..._vertex` and `..._fragment`. -/
theorem fx_C9_standalone_shader_name (ts : List Token) (s : FXShader)
    (ts2 : List Token) (input_path : String)
    (h : parse_standalone_shader ts = .ok (s, ts2)) :
    s.name = (if (cur0 ts).type = TOKEN_VERTEX_SHADER then "vertex" else "fragment") ∧
    ∀ f ∈ shader_outputs input_path s, ∃ suffix,
      f.1 = input_path ++ "_" ++ s.name ++ suffix := by
  refine ⟨?_, shader_outputs_basename input_path s⟩
  rw [parse_standalone_shader] at h
  split at h
  · exact absurd h (by simp)
  · split at h
    · exact absurd h (by simp)
    · injection h with h'
      have hq := congrArg (fun p => p.1.name) h'
      exact hq.symm

/-! ## Claim C2: pending and local declarations of standalone shaders -/

/-- A top-level `uniform`/`input` declaration, as token material:
keyword, builtin type token, identifier, semicolon. -/
structure DeclTok where
  is_input : Bool
  ty : TokenType
  tyText : String
  name : String

/-- The four tokens of one declaration. -/
def decl_tokens (d : DeclTok) : List Token :=
  [⟨(if d.is_input then TOKEN_INPUT else TOKEN_UNIFORM),
    (if d.is_input then "input" else "uniform"), 0, 0, 0⟩,
   ⟨d.ty, d.tyText, 0, 0, 0⟩,
   ⟨TOKEN_IDENTIFIER, d.name, 0, 0, 0⟩,
   ⟨TOKEN_SEMICOLON, ";", 0, 0, 0⟩]

/-- The token stream of a run of declarations. -/
def decls_tokens (ds : List DeclTok) : List Token :=
  (ds.map decl_tokens).flatten

/-- The uniforms a run of declarations declares, in order. -/
def uniforms_of (ds : List DeclTok) : List FXUniform :=
  (ds.filter (fun d => !d.is_input)).map (fun d => ⟨d.tyText, d.name⟩)

/-- The inputs a run of declarations declares, in order. -/
def inputs_of (ds : List DeclTok) : List FXInput :=
  (ds.filter (fun d => d.is_input)).map (fun d => ⟨d.tyText, d.name⟩)

/-- The declaration's type token lies in the builtin-type range the
declaration parsers accept. -/
def decl_ok (d : DeclTok) : Prop :=
  tcode TOKEN_FLOAT ≤ tcode d.ty ∧ tcode d.ty ≤ tcode TOKEN_SAMPLERCUBE

theorem parse_uniform_decl_tokens (d : DeclTok) (hd : decl_ok d)
    (hu : d.is_input = false) (rest : List Token) :
    parse_uniform (decl_tokens d ++ rest) = .ok (⟨d.tyText, d.name⟩, rest) := by
  obtain ⟨hd1, hd2⟩ := hd
  simp only [decl_tokens, List.cons_append, List.nil_append]
  rw [parse_uniform]
  rw [if_pos (by simp [cur0, hu])]
  dsimp only [List.tail_cons, cur0, List.headD]
  rw [if_neg (by omega)]
  rw [if_pos rfl, if_pos rfl]

theorem parse_input_decl_tokens (d : DeclTok) (hd : decl_ok d)
    (hu : d.is_input = true) (rest : List Token) :
    parse_input (decl_tokens d ++ rest) = .ok (⟨d.tyText, d.name⟩, rest) := by
  obtain ⟨hd1, hd2⟩ := hd
  simp only [decl_tokens, List.cons_append, List.nil_append]
  rw [parse_input]
  rw [if_pos (by simp [cur0, hu])]
  dsimp only [List.tail_cons, cur0, List.headD]
  rw [if_neg (by omega)]
  rw [if_pos rfl, if_pos rfl]

theorem copy_uniform_list_id (l : List FXUniform) : copy_uniform_list l = l := by
  induction l with
  | nil => rfl
  | cons u l ih =>
    rw [copy_uniform_list, List.map_cons]
    rw [copy_uniform_list] at ih
    rw [ih]

theorem copy_input_list_id (l : List FXInput) : copy_input_list l = l := by
  induction l with
  | nil => rfl
  | cons u l ih =>
    rw [copy_input_list, List.map_cons]
    rw [copy_input_list] at ih
    rw [ih]

/-- Consuming a run of well-formed top-level declarations buffers them,
in order, onto the pending lists. -/
theorem psf_loop_decls (src : List Char) (tsb : List Token) :
    ∀ (ds : List DeclTok) (pend_us : List FXUniform) (pend_ins : List FXInput),
      (∀ d ∈ ds, decl_ok d) →
      parse_shader_file_loop src (decls_tokens ds ++ tsb) pend_us pend_ins =
      parse_shader_file_loop src tsb (pend_us ++ uniforms_of ds)
        (pend_ins ++ inputs_of ds) := by
  intro ds
  induction ds with
  | nil =>
    intro pend_us pend_ins hok
    simp [decls_tokens, uniforms_of, inputs_of]
  | cons d ds ih =>
    intro pend_us pend_ins hok
    have hds : decls_tokens (d :: ds) ++ tsb = decl_tokens d ++ (decls_tokens ds ++ tsb) := by
      simp [decls_tokens]
    rw [hds]
    cases hin : d.is_input with
    | false =>
      have hstep : parse_shader_file_loop src (decl_tokens d ++ (decls_tokens ds ++ tsb))
          pend_us pend_ins =
          parse_shader_file_loop src (decls_tokens ds ++ tsb)
            (pend_us ++ [⟨d.tyText, d.name⟩]) pend_ins := by
        rw [parse_shader_file_loop]
        rw [if_neg (by simp [decl_tokens, cur0, hin])]
        rw [dif_neg (by simp [decl_tokens, cur0, hin])]
        rw [if_pos (by simp [decl_tokens, cur0, hin])]
        rw [parse_uniform_decl_tokens d (hok d (by simp)) hin (decls_tokens ds ++ tsb)]
      refine hstep.trans ((ih _ _ (fun x hx => hok x (by simp [hx]))).trans ?_)
      have hu : uniforms_of (d :: ds) = ⟨d.tyText, d.name⟩ :: uniforms_of ds := by
        simp [uniforms_of, List.filter_cons, hin]
      have hA : (pend_us ++ [FXUniform.mk d.tyText d.name]) ++ uniforms_of ds =
          pend_us ++ uniforms_of (d :: ds) := by
        rw [hu, List.append_assoc]
        rfl
      have hi : inputs_of (d :: ds) = inputs_of ds := by
        simp [inputs_of, List.filter_cons, hin]
      rw [hA, hi]
    | true =>
      have hstep : parse_shader_file_loop src (decl_tokens d ++ (decls_tokens ds ++ tsb))
          pend_us pend_ins =
          parse_shader_file_loop src (decls_tokens ds ++ tsb)
            pend_us (pend_ins ++ [⟨d.tyText, d.name⟩]) := by
        rw [parse_shader_file_loop]
        rw [if_neg (by simp [decl_tokens, cur0, hin])]
        rw [dif_neg (by simp [decl_tokens, cur0, hin])]
        rw [if_neg (by simp [decl_tokens, cur0, hin])]
        rw [if_pos (by simp [decl_tokens, cur0, hin])]
        rw [parse_input_decl_tokens d (hok d (by simp)) hin (decls_tokens ds ++ tsb)]
      refine hstep.trans ((ih _ _ (fun x hx => hok x (by simp [hx]))).trans ?_)
      have hi : inputs_of (d :: ds) = ⟨d.tyText, d.name⟩ :: inputs_of ds := by
        simp [inputs_of, List.filter_cons, hin]
      have hB : (pend_ins ++ [FXInput.mk d.tyText d.name]) ++ inputs_of ds =
          pend_ins ++ inputs_of (d :: ds) := by
        rw [hi, List.append_assoc]
        rfl
      have hu : uniforms_of (d :: ds) = uniforms_of ds := by
        simp [uniforms_of, List.filter_cons, hin]
      rw [hB, hu]

/-- A standalone shader parsed while the current token is a
`vertex_shader`/`fragment_shader` keyword has empty local declaration
lists (the local-declaration loop never runs). -/
theorem parse_standalone_shader_nolocal (ts : List Token) (s : FXShader)
    (ts1 : List Token)
    (hv : (cur0 ts).type = TOKEN_VERTEX_SHADER ∨ (cur0 ts).type = TOKEN_FRAGMENT_SHADER)
    (h : parse_standalone_shader ts = .ok (s, ts1)) :
    s.uniforms = [] ∧ s.inputs = [] := by
  have hld : parse_local_decls ts = .ok ([], [], ts) := by
    rw [parse_local_decls]
    rw [if_neg (by rcases hv with hv | hv <;> simp [hv])]
    rw [if_neg (by rcases hv with hv | hv <;> simp [hv])]
  rw [parse_standalone_shader, hld] at h
  split at h
  · exact absurd h (by simp)
  · rename_i us ins ts3 heq
    injection heq with heq'
    injection heq' with hus hrest
    injection hrest with hins hts3
    subst hus
    subst hins
    subst hts3
    split at h
    · exact absurd h (by simp)
    · injection h with h'
      have hq1 := congrArg (fun p => p.1.uniforms) h'
      have hq2 := congrArg (fun p => p.1.inputs) h'
      exact ⟨hq1.symm, hq2.symm⟩

/-- C2.  For every file consisting of well-formed top-level
uniform/input declarations `ds1`, then further declarations `ds2`
immediately preceding a standalone `vertex_shader`/`fragment_shader`
block, the first ShaderDef the file parser produces carries as its
uniform list (resp. input list) the union — in declaration order, with
nothing lost — of the declarations of `ds1` and of `ds2`: the buffered
pending declarations together with the block's immediately preceding
"local" declarations.  (In the code all of them reach the shader via the
pending buffer: the standalone parser's own local lists are always
empty, and the pending lists are copied in.) -/
theorem fx_C2_pending_and_local_declarations (src : List Char)
    (ds1 ds2 : List DeclTok) (tsb : List Token) (shaders : List FXShader)
    (hd : ∀ d ∈ ds1 ++ ds2, decl_ok d)
    (hv : (cur0 tsb).type = TOKEN_VERTEX_SHADER ∨ (cur0 tsb).type = TOKEN_FRAGMENT_SHADER)
    (hok : parse_shader_file src (decls_tokens (ds1 ++ ds2) ++ tsb) = .ok shaders) :
    ∃ s rest, shaders = s :: rest ∧
      s.uniforms = uniforms_of ds1 ++ uniforms_of ds2 ∧
      s.inputs = inputs_of ds1 ++ inputs_of ds2 := by
  have hdist_u : uniforms_of (ds1 ++ ds2) = uniforms_of ds1 ++ uniforms_of ds2 := by
    simp [uniforms_of, List.filter_append]
  have hdist_i : inputs_of (ds1 ++ ds2) = inputs_of ds1 ++ inputs_of ds2 := by
    simp [inputs_of, List.filter_append]
  rw [parse_shader_file, psf_loop_decls src tsb (ds1 ++ ds2) [] [] hd,
    List.nil_append, List.nil_append] at hok
  rw [parse_shader_file_loop] at hok
  rw [if_neg (by rcases hv with hv | hv <;> simp [hv])] at hok
  rw [dif_neg (by rcases hv with hv | hv <;> simp [hv])] at hok
  rw [if_neg (by rcases hv with hv | hv <;> simp [hv])] at hok
  rw [if_neg (by rcases hv with hv | hv <;> simp [hv])] at hok
  rw [if_pos hv] at hok
  split at hok
  · exact absurd hok (by simp)
  · rename_i s0 ts1 hss
    obtain ⟨hsu, hsi⟩ := parse_standalone_shader_nolocal tsb s0 ts1 hv hss
    rcases hrec : parse_shader_file_loop src ts1 (uniforms_of (ds1 ++ ds2))
        (inputs_of (ds1 ++ ds2)) with e | rest
    all_goals rw [hrec] at hok
    all_goals dsimp only at hok
    · exact absurd hok (by simp)
    · injection hok with hok'
      have huni : ∀ (s1 : FXShader) (pend : List FXInput),
          (if pend ≠ [] then { s1 with inputs := copy_input_list pend } else s1).uniforms =
          s1.uniforms := by
        intro s1 pend
        split <;> rfl
      have hinp : ∀ (s1 : FXShader) (pend : List FXUniform),
          (if pend ≠ [] then { s1 with uniforms := copy_uniform_list pend } else s1).inputs =
          s1.inputs := by
        intro s1 pend
        split <;> rfl
      refine ⟨_, rest, hok'.symm, ?_, ?_⟩
      · dsimp only
        rw [huni]
        by_cases hpu : uniforms_of (ds1 ++ ds2) ≠ []
        · rw [if_pos hpu]
          dsimp only
          rw [copy_uniform_list_id, hdist_u]
        · rw [if_neg hpu]
          push_neg at hpu
          rw [hsu, ← hdist_u, hpu]
      · dsimp only
        by_cases hpi : inputs_of (ds1 ++ ds2) ≠ []
        · rw [if_pos hpi]
          dsimp only
          rw [copy_input_list_id, hdist_i]
        · rw [if_neg hpi]
          push_neg at hpi
          rw [hinp, hsi, ← hdist_i, hpi]

/-! ## Concrete witnesses for the remaining hypothesis-bearing claims -/

/-- A vertex-stage function for the C4 witness. -/
def c4_fn : FXFunction :=
  ⟨"vmain", true, false, none, none, some "x;"⟩

/-- A ShaderDef with two declared inputs and a vertex function. -/
def c4_shader : FXShader :=
  ⟨"vertex", [], [⟨"vec3", "position"⟩, ⟨"vec2", "uv"⟩], [c4_fn]⟩

/-- C4, witness at a concrete two-input shader: the vertex output
enumerates `layout(location = 0)` and `layout(location = 1)` in
declaration order. -/
theorem fx_C4_witness :
    ∃ restFiles, generate_glsl c4_shader "t" =
      ("t" ++ ".vert.glsl",
        write_glsl_header ++ write_uniforms c4_shader.uniforms ++
        (concat_all (c4_shader.inputs.enum.map (fun p =>
          "layout(location = " ++ toString p.1 ++ ") in " ++ p.2.type ++ " " ++ p.2.name ++ ";\n")) ++
          (if c4_shader.inputs ≠ [] then "\n" else "")) ++
        write_function c4_fn c4_shader.inputs) :: restFiles :=
  fx_C4_input_locations c4_shader "t" c4_fn rfl

/-- A fragment-stage function for the C5 witness. -/
def c5_fn : FXFunction :=
  ⟨"fmain", false, true, none, none, some "y;"⟩

/-- A ShaderDef with a fragment function, a uniform and an input. -/
def c5_shader : FXShader :=
  ⟨"fragment", [⟨"vec3", "lightColor"⟩], [⟨"vec3", "position"⟩], [c5_fn]⟩

/-- C5, witness at a concrete fragment shader: the fragment output text
carries exactly the three fixed varyings and `out vec4 fragColor;`, and
is unchanged when the declared input list is replaced. -/
theorem fx_C5_witness :
    (∃ preFiles, generate_glsl c5_shader "t" = preFiles ++
      [("t" ++ ".frag.glsl",
        write_glsl_header ++ write_uniforms c5_shader.uniforms ++
        "in vec3 v_normal;\nin vec3 v_position;\nin vec2 v_texCoord;\n\n" ++
        ("out vec4 fragColor;\n\nvoid main() \x7b\n" ++
          (match c5_fn.statements with | some b => b | none => "") ++ "\x7d\n"))]) ∧
    List.filter (fun f => f.1 = "t" ++ ".frag.glsl")
        (generate_glsl { c5_shader with inputs := [⟨"vec2", "uv"⟩] } "t") =
      List.filter (fun f => f.1 = "t" ++ ".frag.glsl")
        (generate_glsl { c5_shader with inputs := [] } "t") :=
  ⟨(fx_C5_fragment_fixed_varyings c5_shader "t" c5_fn rfl rfl).1,
   (fx_C5_fragment_fixed_varyings c5_shader "t" c5_fn rfl rfl).2 [⟨"vec2", "uv"⟩] []⟩

/-- Tokens of `out vec3 v_norm : NORMAL ;` for the C6 witness. -/
def c6_out : Token := ⟨TOKEN_OUT, "out", 0, 0, 0⟩

def c6_ty : Token := ⟨TOKEN_VEC3, "vec3", 0, 0, 0⟩

def c6_id : Token := ⟨TOKEN_IDENTIFIER, "v_norm", 0, 0, 0⟩

def c6_sem : List Token := [⟨TOKEN_COLON, ":", 0, 0, 0⟩, ⟨TOKEN_IDENTIFIER, "NORMAL", 0, 0, 0⟩]

def c6_semi : Token := ⟨TOKEN_SEMICOLON, ";", 0, 0, 0⟩

/-- C6, witness at the concrete declaration `out vec3 v_norm : NORMAL;`:
in a vertex body it is rewritten to `out vec3 v_norm;\n` with the
semantic dropped, in a fragment body it contributes nothing. -/
theorem fx_C6_witness :
    (parse_function_body_to_glsl true
        (c6_out :: c6_ty :: c6_id :: (c6_sem ++ c6_semi :: [])) 0 TOKEN_EOF "" =
      if 4090 ≤ ("" ++ "out " ++ c6_ty.text ++ " " ++ c6_id.text ++ ";\n").length then
        .error ()
      else parse_function_body_to_glsl true [] 0 TOKEN_EOF
        ("" ++ "out " ++ c6_ty.text ++ " " ++ c6_id.text ++ ";\n")) ∧
    (parse_function_body_to_glsl false
        (c6_out :: c6_ty :: c6_id :: (c6_sem ++ c6_semi :: [])) 0 TOKEN_EOF "" =
      if 4090 ≤ ("" : String).length then .error ()
      else parse_function_body_to_glsl false [] 0 TOKEN_EOF "") :=
  fx_C6_out_decl_rewrite c6_out c6_ty c6_id c6_semi c6_sem [] 0 TOKEN_EOF ""
    rfl (by decide) (by decide) rfl rfl
    (Or.inr ⟨⟨TOKEN_COLON, ":", 0, 0, 0⟩, ⟨TOKEN_IDENTIFIER, "NORMAL", 0, 0, 0⟩, rfl, rfl, rfl⟩)

/-- A standalone `vertex_shader vs() { }` block for the C9 witness. -/
def c9_vtoks : List Token :=
  [⟨TOKEN_VERTEX_SHADER, "vertex_shader", 0, 0, 0⟩, ⟨TOKEN_IDENTIFIER, "myVS", 0, 0, 0⟩,
   ⟨TOKEN_LPAREN, "(", 0, 0, 0⟩, ⟨TOKEN_RPAREN, ")", 0, 0, 0⟩,
   ⟨TOKEN_LBRACE, "\x7b", 0, 0, 0⟩, ⟨TOKEN_RBRACE, "\x7d", 0, 0, 0⟩]

/-- A standalone `fragment_shader fs() { }` block for the C9 witness. -/
def c9_ftoks : List Token :=
  [⟨TOKEN_FRAGMENT_SHADER, "fragment_shader", 0, 0, 0⟩, ⟨TOKEN_IDENTIFIER, "myFS", 0, 0, 0⟩,
   ⟨TOKEN_LPAREN, "(", 0, 0, 0⟩, ⟨TOKEN_RPAREN, ")", 0, 0, 0⟩,
   ⟨TOKEN_LBRACE, "\x7b", 0, 0, 0⟩, ⟨TOKEN_RBRACE, "\x7d", 0, 0, 0⟩]

/-- What `parse_standalone_shader` yields on `c9_vtoks`. -/
def c9_vshader : FXShader :=
  ⟨"vertex", [], [], [⟨"myVS", true, false, none, none, some ""⟩]⟩

/-- What `parse_standalone_shader` yields on `c9_ftoks`. -/
def c9_fshader : FXShader :=
  ⟨"fragment", [], [], [⟨"myFS", false, true, none, none, some ""⟩]⟩

/-- C9, witness at two concrete standalone blocks: the parsed shader is
named `"vertex"` for the `vertex_shader` block and `"fragment"` for the
`fragment_shader` block, regardless of the identifiers `myVS`/`myFS`. -/
theorem fx_C9_witness :
    c9_vshader.name =
      (if (cur0 c9_vtoks).type = TOKEN_VERTEX_SHADER then "vertex" else "fragment") ∧
    c9_fshader.name =
      (if (cur0 c9_ftoks).type = TOKEN_VERTEX_SHADER then "vertex" else "fragment") :=
  ⟨(fx_C9_standalone_shader_name c9_vtoks c9_vshader [] "a.fx" (by
      simp +decide [parse_standalone_shader, parse_local_decls, parse_new_function,
        parse_params, parse_function_body_to_glsl, pexpect, cur0, c9_vtoks, c9_vshader])).1,
   (fx_C9_standalone_shader_name c9_ftoks c9_fshader [] "a.fx" (by
      simp +decide [parse_standalone_shader, parse_local_decls, parse_new_function,
        parse_params, parse_function_body_to_glsl, pexpect, cur0, c9_ftoks, c9_fshader])).1⟩

/-- A pending `uniform mat4 mvp;` declaration for the C2 witness. -/
def c2_ds1 : List DeclTok := [⟨false, TOKEN_MAT4, "mat4", "mvp"⟩]

/-- A local `input vec3 position;` declaration for the C2 witness. -/
def c2_ds2 : List DeclTok := [⟨true, TOKEN_VEC3, "vec3", "position"⟩]

/-- A standalone `vertex_shader vs() { }` block for the C2 witness. -/
def c2_tsb : List Token :=
  [⟨TOKEN_VERTEX_SHADER, "vertex_shader", 0, 0, 0⟩, ⟨TOKEN_IDENTIFIER, "vs", 0, 0, 0⟩,
   ⟨TOKEN_LPAREN, "(", 0, 0, 0⟩, ⟨TOKEN_RPAREN, ")", 0, 0, 0⟩,
   ⟨TOKEN_LBRACE, "\x7b", 0, 0, 0⟩, ⟨TOKEN_RBRACE, "\x7d", 0, 0, 0⟩]

/-- What `parse_shader_file` yields on the C2 witness file. -/
def c2_shaders : List FXShader :=
  [⟨"vertex", [⟨"mat4", "mvp"⟩], [⟨"vec3", "position"⟩],
    [⟨"vs", true, false, none, none, some ""⟩]⟩]

/-- C2, witness at a concrete file `uniform mat4 mvp; input vec3
position; vertex_shader vs() \x7b \x7d`: the standalone shader's uniform
and input lists are the union of the pending and local declarations. -/
theorem fx_C2_witness :
    ∃ s rest, c2_shaders = s :: rest ∧
      s.uniforms = uniforms_of c2_ds1 ++ uniforms_of c2_ds2 ∧
      s.inputs = inputs_of c2_ds1 ++ inputs_of c2_ds2 :=
  fx_C2_pending_and_local_declarations [] c2_ds1 c2_ds2 c2_tsb c2_shaders
    (by intro d hd; simp [c2_ds1, c2_ds2] at hd
        rcases hd with rfl | rfl <;> exact ⟨by decide, by decide⟩)
    (Or.inl rfl)
    (by rw [parse_shader_file,
          psf_loop_decls [] c2_tsb (c2_ds1 ++ c2_ds2) [] []
            (by intro d hd; simp [c2_ds1, c2_ds2] at hd
                rcases hd with rfl | rfl <;> exact ⟨by decide, by decide⟩)]
        have hs : parse_standalone_shader c2_tsb =
            .ok (⟨"vertex", [], [], [⟨"vs", true, false, none, none, some ""⟩]⟩, []) := by
          simp +decide [parse_standalone_shader, parse_local_decls, parse_new_function,
            parse_params, parse_function_body_to_glsl, pexpect, cur0, c2_tsb]
        show parse_shader_file_loop [] c2_tsb [⟨"mat4", "mvp"⟩] [⟨"vec3", "position"⟩] =
          .ok c2_shaders
        rw [parse_shader_file_loop, hs]
        simp +decide [cur0, c2_tsb, copy_uniform_list, copy_input_list, c2_shaders]
        rw [parse_shader_file_loop]
        simp +decide [cur0])

end Fx